import Mathlib

/-!
Verification development for the RIAS double-entry ledger
(`src/rehman_accounting.py`).

The persisted SQLite state (tables `accounts`, `vouchers`, `transactions`)
is embedded as lists of records; monetary amounts are rationals and the
Python/SQLite `round(x, 2)` is embedded as `round2`.  The schema triggers
(`trg_tx_no_insert_posted`, `trg_tx_no_update_posted`,
`trg_tx_no_delete_posted`, `trg_voucher_post_balanced`) and the SQL `CHECK`
constraints become guards of the storage primitives, which return `Except`:
an `.error` result models SQLite's `RAISE(ABORT, ...)` rolling back the
enclosing transaction, so the caller's state is unchanged on failure.
-/

/-- Account type, column `accounts.type` with its CHECK
`type IN ('Asset','Liability','Income','Expense')`. -/
inductive AccountType
  | Asset | Liability | Income | Expense
deriving DecidableEq

/-- A row of table `accounts(id, name, type)`. -/
structure Account where
  id : Nat
  name : String
  type : AccountType
deriving DecidableEq

/-- A row of table `vouchers(id, date, description, posted)`;
`posted` is the 0/1 integer flag, embedded as `Bool`. -/
structure Voucher where
  id : Nat
  date : String
  description : String
  posted : Bool
deriving DecidableEq

/-- A row of table `transactions(id, voucher_id, account_id, debit, credit)`. -/
structure Txn where
  id : Nat
  voucher_id : Nat
  account_id : Nat
  debit : ℚ
  credit : ℚ
deriving DecidableEq

/-- An element of the in-progress line list `entries` of the voucher form:
`(account id, account name, debit, credit)`. -/
structure Entry where
  account_id : Nat
  label : String
  debit : ℚ
  credit : ℚ
deriving DecidableEq

/-- The persisted database state, plus the AUTOINCREMENT counters. -/
structure DB where
  accounts : List Account
  vouchers : List Voucher
  transactions : List Txn
  nextAid : Nat
  nextVid : Nat
  nextTid : Nat
deriving DecidableEq

/-- The empty database produced by `_init_schema` on a fresh file. -/
def initDB : DB := ⟨[], [], [], 1, 1, 1⟩

/-- Failure outcomes surfaced by the embedded operations.  Trigger aborts
(`RAISE(ABORT, 'Cannot modify a posted voucher')` and the two messages of
`trg_voucher_post_balanced`) and constraint failures arrive at the Python
layer as `sqlite3.Error`; the UI-level validations are the hint messages of
`add_line` / `save_voucher` / the report generators. -/
inductive Err
  | NoLines            -- "Add at least one line before saving." / "Add at least one line first."
  | Unbalanced         -- "Total Debit must equal Total Credit." and the balance abort of trg_voucher_post_balanced
  | TooFewLines        -- "Voucher must contain at least two lines before posting"
  | InvalidDate        -- "Date must be in YYYY-MM-DD format."
  | InvalidDateRange   -- "From date must be before To date."
  | PostedVoucherLocked -- "Cannot modify a posted voucher"
  | CheckViolation     -- CHECK constraint failure on transactions
  | FkViolation        -- FOREIGN KEY constraint failure
  | InvalidNumber      -- "Enter valid numbers for Debit/Credit."
  | NegativeAmount     -- "Debit/Credit must be positive values."
  | InvalidLine        -- "Enter either debit or credit, not both or none."
  | NoAccount          -- "Select a valid account." / "Selected account not found."
  | NoCashAccounts     -- "No cash accounts found. Enter names in Cash Accts."
  | DuplicateAccount   -- "Account already exists"
  | NonRationalAmount  -- modelling boundary: an IEEE special (nan/inf) reached the draft line list (see add_line)
deriving DecidableEq

/-! ### Two-decimal rounding -/

attribute [local semireducible] Rat.add Rat.mul Rat.inv Rat.sub Rat.ofScientific

/-- Python's `round(x, 2)` / SQLite's `ROUND(x, 2)`: round to the nearest
multiple of 1/100 (ties at half a cent are immaterial to every claim). -/
def round2 (q : ℚ) : ℚ := ((q * 100 + 1 / 2).floor : ℚ) / 100

/-- An amount is a two-decimal value when rounding to 2 places fixes it. -/
def Is2dp (q : ℚ) : Prop := round2 q = q

instance (q : ℚ) : Decidable (Is2dp q) := by unfold Is2dp; infer_instance

theorem ratFloor_eq_intFloor (q : ℚ) : (Rat.floor q : ℤ) = ⌊q⌋ := by
  rw [Rat.floor_def', Rat.floor_def]

theorem round2_intDiv (n : ℤ) : round2 ((n : ℚ) / 100) = (n : ℚ) / 100 := by
  unfold round2
  rw [div_mul_cancel₀ (b := (100 : ℚ)) _ (by norm_num), ratFloor_eq_intFloor,
    Int.floor_int_add]
  norm_num

theorem is2dp_iff (q : ℚ) : Is2dp q ↔ ∃ n : ℤ, q = (n : ℚ) / 100 := by
  constructor
  · intro h
    exact ⟨(q * 100 + 1 / 2).floor, h.symm⟩
  · rintro ⟨n, rfl⟩
    exact round2_intDiv n

theorem is2dp_round2 (q : ℚ) : Is2dp (round2 q) :=
  (is2dp_iff _).mpr ⟨(q * 100 + 1 / 2).floor, rfl⟩

theorem is2dp_zero : Is2dp (0 : ℚ) := by decide

theorem is2dp_add {a b : ℚ} (ha : Is2dp a) (hb : Is2dp b) : Is2dp (a + b) := by
  rcases (is2dp_iff a).mp ha with ⟨n, rfl⟩
  rcases (is2dp_iff b).mp hb with ⟨m, rfl⟩
  exact (is2dp_iff _).mpr ⟨n + m, by push_cast; ring⟩

theorem is2dp_neg {a : ℚ} (ha : Is2dp a) : Is2dp (-a) := by
  rcases (is2dp_iff a).mp ha with ⟨n, rfl⟩
  exact (is2dp_iff _).mpr ⟨-n, by push_cast; ring⟩

theorem is2dp_sub {a b : ℚ} (ha : Is2dp a) (hb : Is2dp b) : Is2dp (a - b) := by
  rw [sub_eq_add_neg]; exact is2dp_add ha (is2dp_neg hb)

theorem is2dp_sum {l : List ℚ} (h : ∀ x ∈ l, Is2dp x) : Is2dp l.sum := by
  induction l with
  | nil => simpa using is2dp_zero
  | cons a l ih =>
      rw [List.sum_cons]
      exact is2dp_add (h a (by simp)) (ih fun x hx => h x (by simp [hx]))

/-! ### String helpers

Core `String` functions such as `trim`/`splitOn` are re-implemented over the
underlying character list with structural recursion so that every definition
evaluates inside the kernel. -/

/-- Python `str.strip` whitespace set (the ASCII part). -/
def isSpaceChar (c : Char) : Bool :=
  c == ' ' || c == '\t' || c == '\n' || c == '\r' || c == '\x0b' || c == '\x0c'

/-- Python `value.strip()`. -/
def strip (s : String) : String :=
  ⟨((s.data.dropWhile isSpaceChar).reverse.dropWhile isSpaceChar).reverse⟩

/-- Split a character list at every occurrence of the separator character. -/
def splitOnChar (sep : Char) : List Char → List (List Char)
  | [] => [[]]
  | c :: cs =>
      let rest := splitOnChar sep cs
      if c == sep then [] :: rest
      else match rest with
        | [] => [[c]]
        | g :: gs => (c :: g) :: gs

/-- Numeric value of a digit string. -/
def digitsToNat (cs : List Char) : Nat :=
  cs.foldl (fun n c => n * 10 + (c.toNat - 48)) 0

def isLeap (y : Nat) : Bool :=
  (y % 4 == 0 && y % 100 != 0) || (y % 400 == 0)

def daysInMonth (y m : Nat) : Nat :=
  if m == 2 then (if isLeap y then 29 else 28)
  else if m == 4 || m == 6 || m == 9 || m == 11 then 30
  else 31

/-- `is_valid_date(value)`: `datetime.strptime(value, "%Y-%m-%d")` succeeds,
i.e. three dash-separated digit groups (year up to 4 digits, month and day up
to 2) forming a real calendar date. -/
def is_valid_date (s : String) : Bool :=
  match splitOnChar '-' s.data with
  | [ys, ms, ds] =>
      decide (1 ≤ ys.length) && decide (ys.length ≤ 4) && ys.all Char.isDigit &&
      decide (1 ≤ ms.length) && decide (ms.length ≤ 2) && ms.all Char.isDigit &&
      decide (1 ≤ ds.length) && decide (ds.length ≤ 2) && ds.all Char.isDigit &&
      (let y := digitsToNat ys
       let m := digitsToNat ms
       let d := digitsToNat ds
       decide (1 ≤ y) && decide (1 ≤ m) && decide (m ≤ 12) &&
       decide (1 ≤ d) && decide (d ≤ daysInMonth y m))
  | _ => false

/-- Does the text start with the pattern? -/
def leadMatch : List Char → List Char → Bool
  | [], _ => true
  | _ :: _, [] => false
  | p :: ps, c :: cs => p == c && leadMatch ps cs

/-- Does the pattern occur anywhere in the text? -/
def hasSubList (pat : List Char) : List Char → Bool
  | [] => pat.isEmpty
  | c :: cs => leadMatch pat (c :: cs) || hasSubList pat cs

/-- Substring test (SQLite `LIKE '%pat%'` with a plain pattern). -/
def containsSub (hay pat : String) : Bool :=
  hasSubList pat.data hay.data

instance {ε α : Type} [DecidableEq ε] [DecidableEq α] : DecidableEq (Except ε α) := fun a b =>
  match a, b with
  | .ok x, .ok y => if h : x = y then .isTrue (by rw [h]) else .isFalse (by simp [h])
  | .error x, .error y => if h : x = y then .isTrue (by rw [h]) else .isFalse (by simp [h])
  | .ok _, .error _ => .isFalse (by simp)
  | .error _, .ok _ => .isFalse (by simp)

/-- Python `str.lower()` restricted to ASCII (account names). -/
def lowerStr (s : String) : String := ⟨s.data.map Char.toLower⟩

/-- SQLite TEXT `<=` (lexicographic byte order; dates are ASCII so this
coincides with the lexicographic order on the character lists). -/
def sLe (a b : String) : Bool := !decide (b.data < a.data)

/-- SQLite TEXT `<`. -/
def sLt (a b : String) : Bool := decide (a.data < b.data)

theorem sLt_iff (a b : String) : sLt a b = true ↔ a < b := by
  rw [sLt, decide_eq_true_eq]
  exact Iff.symm String.lt_iff_toList_lt

theorem sLe_iff (a b : String) : sLe a b = true ↔ a ≤ b := by
  rw [sLe, Bool.not_eq_true', decide_eq_false_iff_not]
  exact Iff.symm (not_congr String.lt_iff_toList_lt)

/-! ### Database queries and trigger-guarded storage primitives -/

/-- `SELECT * FROM transactions WHERE voucher_id = vid` (in insertion order). -/
def voucherTxns (s : DB) (vid : Nat) : List Txn :=
  s.transactions.filter (fun t => t.voucher_id == vid)

/-- `SUM(debit)` over a row set. -/
def sumDebit (ts : List Txn) : ℚ := (ts.map Txn.debit).sum

/-- `SUM(credit)` over a row set. -/
def sumCredit (ts : List Txn) : ℚ := (ts.map Txn.credit).sum

/-- `COALESCE((SELECT posted FROM vouchers WHERE id = vid), 0) = 1`,
the WHEN clause of the three transaction triggers. -/
def voucherPostedB (s : DB) (vid : Nat) : Bool :=
  s.vouchers.any (fun v => v.id == vid && v.posted)

def hasVoucherB (s : DB) (vid : Nat) : Bool :=
  s.vouchers.any (fun v => v.id == vid)

def hasAccountB (s : DB) (aid : Nat) : Bool :=
  s.accounts.any (fun a => a.id == aid)

/-- The CHECK constraints of table `transactions`:
`debit >= 0`, `credit >= 0`, `(debit > 0 AND credit = 0) OR (credit > 0 AND debit = 0)`. -/
def lineChk (d c : ℚ) : Bool :=
  decide (0 ≤ d) && decide (0 ≤ c) &&
    ((decide (0 < d) && decide (c = 0)) || (decide (0 < c) && decide (d = 0)))

/-- Body of `trg_voucher_post_balanced`: abort when the voucher has fewer
than two lines or `ROUND(SUM(debit), 2) <> ROUND(SUM(credit), 2)`. -/
def postCheck (s : DB) (vid : Nat) : Except Err Unit :=
  if (voucherTxns s vid).length < 2 then .error .TooFewLines
  else if round2 (sumDebit (voucherTxns s vid)) ≠ round2 (sumCredit (voucherTxns s vid)) then
    .error .Unbalanced
  else .ok ()

/-- `UPDATE vouchers SET posted = p WHERE id = vid`.  When `p` is true and a
row is updated, `trg_voucher_post_balanced` runs first and may abort; setting
`posted = 0` never fires the trigger.  An UPDATE matching no row does nothing. -/
def setPosted (s : DB) (vid : Nat) (p : Bool) : Except Err DB :=
  if p ∧ hasVoucherB s vid = true then
    match postCheck s vid with
    | .error e => .error e
    | .ok _ =>
        .ok { s with vouchers :=
          s.vouchers.map fun v => if v.id == vid then { v with posted := true } else v }
  else if p then .ok s
  else
    .ok { s with vouchers :=
      s.vouchers.map fun v => if v.id == vid then { v with posted := false } else v }

/-- `INSERT INTO transactions (voucher_id, account_id, debit, credit) VALUES …`:
`trg_tx_no_insert_posted` aborts first when the owning voucher is posted, then
the CHECK constraints and the two foreign keys are enforced. -/
def insertTxn (s : DB) (vid aid : Nat) (d c : ℚ) : Except Err DB :=
  if voucherPostedB s vid then .error .PostedVoucherLocked
  else if lineChk d c = false then .error .CheckViolation
  else if hasVoucherB s vid = false ∨ hasAccountB s aid = false then .error .FkViolation
  else .ok { s with
    transactions := s.transactions ++ [⟨s.nextTid, vid, aid, d, c⟩],
    nextTid := s.nextTid + 1 }

/-- `UPDATE transactions SET voucher_id, account_id, debit, credit WHERE id = tid`:
`trg_tx_no_update_posted` aborts when the old or the new owning voucher is
posted; then CHECK and foreign keys are enforced on the new values.  An
UPDATE matching no row does nothing. -/
def updateTxn (s : DB) (tid vid aid : Nat) (d c : ℚ) : Except Err DB :=
  if s.transactions.any (fun t => t.id == tid &&
      (voucherPostedB s t.voucher_id || voucherPostedB s vid)) then
    .error .PostedVoucherLocked
  else if s.transactions.any (fun t => t.id == tid) ∧ lineChk d c = false then
    .error .CheckViolation
  else if s.transactions.any (fun t => t.id == tid) ∧
      (hasVoucherB s vid = false ∨ hasAccountB s aid = false) then
    .error .FkViolation
  else .ok { s with transactions := s.transactions.map fun t =>
    if t.id == tid then { t with voucher_id := vid, account_id := aid, debit := d, credit := c }
    else t }

/-- `DELETE FROM transactions WHERE id = tid`: `trg_tx_no_delete_posted`
aborts when the owning voucher of a deleted row is posted. -/
def deleteTxn (s : DB) (tid : Nat) : Except Err DB :=
  if s.transactions.any (fun t => t.id == tid && voucherPostedB s t.voucher_id) then
    .error .PostedVoucherLocked
  else .ok { s with transactions := s.transactions.filter (fun t => !(t.id == tid)) }

/-- `DELETE FROM transactions WHERE voucher_id = vid` (also the ON DELETE
CASCADE of `vouchers`): the delete trigger aborts when the owner is posted. -/
def deleteTxnsOfVoucher (s : DB) (vid : Nat) : Except Err DB :=
  if s.transactions.any (fun t => t.voucher_id == vid) ∧ voucherPostedB s vid = true then
    .error .PostedVoucherLocked
  else .ok { s with transactions := s.transactions.filter (fun t => !(t.voucher_id == vid)) }

/-! ### Amount parsing (`parse_amount`)

`parse_amount` feeds the entry text through Python `float()` and
`round(·, 2)`.  `float()` produces IEEE doubles; the embedding keeps the
finite results exact as rationals (the binary rounding / overflow of the
double representation is outside the decimal model used throughout this
file) and represents the `nan` / `±inf` specials — which `float()` accepts
by name and `round(·, 2)` returns unchanged — as explicit values. -/

/-- Result of `float(str)`: a finite value (kept exact as a rational), a
signed infinity, or `nan`. -/
inductive PyFloat
  | num (q : ℚ)
  | inf (neg : Bool)
  | nan
deriving DecidableEq

/-- `10 ^ n` over ℚ. -/
def pow10 : Nat → ℚ
  | 0 => 1
  | n + 1 => 10 * pow10 n

/-- Continuation of a `float()` digit group (PEP 515): digits with single
underscores strictly between digits; yields the digits, underscores
removed. -/
def digitTail : List Char → Option (List Char)
  | [] => some []
  | '_' :: r =>
      match r with
      | [] => none
      | c :: r2 => if c.isDigit then (digitTail r2).map (fun t => c :: t) else none
  | c :: r => if c.isDigit then (digitTail r).map (fun t => c :: t) else none

/-- A non-empty `float()` digit group: a digit followed by `digitTail`
(so an underscore may not lead, trail, or double up). -/
def digitGroup : List Char → Option (List Char)
  | [] => none
  | c :: r => if c.isDigit then (digitTail r).map (fun t => c :: t) else none

/-- Mantissa of a `float()` literal: `digits`, `digits.`, `.digits` or
`digits.digits`, with underscores allowed inside each digit group. -/
def parseMantissa (cs : List Char) : Option ℚ :=
  match splitOnChar '.' cs with
  | [ip] => (digitGroup ip).map (fun ds => (digitsToNat ds : ℚ))
  | [ip, fp] =>
      if ip = [] then
        (digitGroup fp).map (fun fs => (digitsToNat fs : ℚ) / pow10 fs.length)
      else if fp = [] then
        (digitGroup ip).map (fun ds => (digitsToNat ds : ℚ))
      else
        match digitGroup ip, digitGroup fp with
        | some ds, some fs =>
            some ((digitsToNat ds : ℚ) + (digitsToNat fs : ℚ) / pow10 fs.length)
        | _, _ => none
  | _ => none

/-- Exponent of a `float()` literal: an optional sign and a digit group;
yields the sign and the digit value. -/
def parseExpScale (cs : List Char) : Option (Bool × Nat) :=
  match cs with
  | '+' :: r => (digitGroup r).map (fun ds => (false, digitsToNat ds))
  | '-' :: r => (digitGroup r).map (fun ds => (true, digitsToNat ds))
  | r => (digitGroup r).map (fun ds => (false, digitsToNat ds))

/-- The numeric (non-special) part of `float()`: a mantissa with an
optional exponent (the text is already lowercased, so `e` covers `E`). -/
def parseDecExp (cs : List Char) : Option ℚ :=
  match splitOnChar 'e' cs with
  | [m] => parseMantissa m
  | [m, ex] =>
      match parseMantissa m, parseExpScale ex with
      | some q, some (neg, n) => some (if neg then q / pow10 n else q * pow10 n)
      | _, _ => none
  | _ => none

/-- Python `float(str)` on a stripped string: an optional sign, then the
case-insensitive specials `inf` / `infinity` / `nan` or a decimal literal
with an optional exponent and PEP-515 underscore separators (ASCII digits,
consistent with the string model used throughout this file). -/
def parseFloatLit (s : String) : Option PyFloat :=
  match s.data with
  | [] => none
  | c0 :: rest0 =>
      let sgn : Bool := c0 == '-'
      let body : List Char := if c0 == '-' || c0 == '+' then rest0 else c0 :: rest0
      let low : List Char := body.map Char.toLower
      if low = "inf".data ∨ low = "infinity".data then some (.inf sgn)
      else if low = "nan".data then some .nan
      else (parseDecExp low).map (fun q => .num (if sgn then -q else q))

/-- `round(x, 2)` on a `float()` result: finite values round to two
decimals; `round(nan, 2)` is `nan` and `round(±inf, 2)` is `±inf`. -/
def pyRound2 : PyFloat → PyFloat
  | .num q => .num (round2 q)
  | .inf b => .inf b
  | .nan => .nan

/-- Python `x < 0` on a `float()` result (`nan` compares false). -/
def PyFloat.ltZero : PyFloat → Bool
  | .num q => decide (q < 0)
  | .inf b => b
  | .nan => false

/-- Python `x > 0` on a `float()` result (`nan` compares false). -/
def PyFloat.gtZero : PyFloat → Bool
  | .num q => decide (0 < q)
  | .inf b => !b
  | .nan => false

/-- Python `x == 0` on a `float()` result (`nan` and `±inf` are not 0). -/
def PyFloat.eqZero : PyFloat → Bool
  | .num q => decide (q = 0)
  | .inf _ => false
  | .nan => false

/-- Is the `float()` result an ordinary finite number? -/
def PyFloat.isNum : PyFloat → Bool
  | .num _ => true
  | .inf _ => false
  | .nan => false

/-- `parse_amount(value)`:
`round(float((value or "").strip() or 0), 2)`, and `None` on a parse
error.  An absent / blank / whitespace-only value falls through `or 0` to
`0.0`; the `nan` / `inf` spellings accepted by `float()` come back as the
corresponding special value, on which `round(·, 2)` is the identity. -/
def parse_amount (value : Option String) : Option PyFloat :=
  if strip (value.getD "") = "" then some (.num (round2 0))
  else (parseFloatLit (strip (value.getD ""))).map pyRound2

/-! ### Form-level operations -/

/-- `add_account`: rejects a case-insensitive duplicate name
(`SELECT 1 FROM accounts WHERE LOWER(name)=LOWER(?)`), otherwise inserts. -/
def add_account (s : DB) (name : String) (ty : AccountType) : Except Err DB :=
  if s.accounts.any (fun a => lowerStr a.name == lowerStr name) then .error .DuplicateAccount
  else .ok { s with
    accounts := s.accounts ++ [⟨s.nextAid, name, ty⟩],
    nextAid := s.nextAid + 1 }

/-- `add_line`: validates the date field, parses the Debit/Credit fields
with `parse_amount`, rejects negative values and both/neither-side lines
under Python comparison semantics (`nan` compares false against `0`, so it
passes both sign checks), resolves the selected account name, then appends
`(acc_id, account, d, c)` to `entries`.  The draft line list belongs to
the exact-decimal state space used throughout this embedding, so the
append of an IEEE special — reachable by typing `nan` or `inf` — has no
image in it; that branch is marked with the modelling-boundary value
`NonRationalAmount`, and no theorem below relies on it. -/
def add_line (s : DB) (entries : List Entry) (dateStr accName debitStr creditStr : String) :
    Except Err (List Entry) :=
  if is_valid_date (strip dateStr) = false then .error .InvalidDate
  else
    match parse_amount (some debitStr), parse_amount (some creditStr) with
    | none, _ => .error .InvalidNumber
    | some _, none => .error .InvalidNumber
    | some d, some c =>
        if d.ltZero || c.ltZero then .error .NegativeAmount
        else if (d.gtZero && c.gtZero) || (d.eqZero && c.eqZero) then .error .InvalidLine
        else
          match s.accounts.find? (fun a => a.name == accName) with
          | none => .error .NoAccount
          | some a =>
              match d, c with
              | .num dq, .num cq => .ok (entries ++ [⟨a.id, accName, dq, cq⟩])
              | _, _ => .error .NonRationalAmount

/-- `total_debit` of `save_voucher` / `add_balancing_line`:
`round(sum(round(e[2], 2) for e in entries), 2)`. -/
def totalDebit (es : List Entry) : ℚ := round2 ((es.map fun e => round2 e.debit).sum)

/-- `total_credit`: `round(sum(round(e[3], 2) for e in entries), 2)`. -/
def totalCredit (es : List Entry) : ℚ := round2 ((es.map fun e => round2 e.credit).sum)

/-- `diff = round(total_debit - total_credit, 2)` of `add_balancing_line`. -/
def balancingDiff (entries : List Entry) : ℚ :=
  round2 (totalDebit entries - totalCredit entries)

/-- `add_balancing_line`: requires a non-empty line list and a valid selected
account; appends nothing when `diff == 0`, otherwise appends a single line
carrying the difference on the lighter side (`c = diff` when `diff > 0`,
`d = abs(diff)` otherwise). -/
def add_balancing_line (s : DB) (entries : List Entry) (accName : String) :
    Except Err (List Entry) :=
  if entries = [] then .error .NoLines
  else
    match s.accounts.find? (fun a => a.name == accName) with
    | none => .error .NoAccount
    | some a =>
        if balancingDiff entries = 0 then .ok entries
        else .ok (entries ++ [⟨a.id, accName,
          (if 0 < balancingDiff entries then 0 else |balancingDiff entries|),
          (if 0 < balancingDiff entries then balancingDiff entries else 0)⟩])

/-- The line-insertion loop of `save_voucher`: each entry is inserted with
its amounts rounded to two decimals (`d = round(e[2], 2)` etc.). -/
def insertLines (s : DB) (vid : Nat) : List Entry → Except Err DB
  | [] => .ok s
  | e :: rest =>
      match insertTxn s vid e.account_id (round2 e.debit) (round2 e.credit) with
      | .error err => .error err
      | .ok s1 => insertLines s1 vid rest

/-- `save_voucher`: hint-level validation (non-empty entries, balanced
rounded totals, valid date) and then the atomic write unit `with db.conn:`
— create or reset the voucher as Draft, replace its lines, and finally set
`posted = 1`, which fires `trg_voucher_post_balanced`.  Any error inside the
unit rolls the whole write back (the caller keeps the original state). -/
def save_voucher (s : DB) (dateStr desc : String) (es : List Entry) (cur : Option Nat) :
    Except Err DB :=
  if es = [] then .error .NoLines
  else if totalDebit es ≠ totalCredit es then .error .Unbalanced
  else if is_valid_date (strip dateStr) = false then .error .InvalidDate
  else
    match cur with
    | none =>
        match insertLines
            { s with
              vouchers := s.vouchers ++ [⟨s.nextVid, strip dateStr, strip desc, false⟩],
              nextVid := s.nextVid + 1 }
            s.nextVid es with
        | .error e => .error e
        | .ok s2 => setPosted s2 s.nextVid true
    | some vid =>
        match deleteTxnsOfVoucher
            { s with vouchers := s.vouchers.map fun v =>
                if v.id == vid then ⟨v.id, strip dateStr, strip desc, false⟩ else v }
            vid with
        | .error e => .error e
        | .ok s2 =>
            match insertLines s2 vid es with
            | .error e => .error e
            | .ok s3 => setPosted s3 vid true

/-- `delete_selected_voucher`: inside one transaction, clear `posted`, then
delete the voucher; the ON DELETE CASCADE removes its lines (firing the
delete trigger, which passes because `posted` was just cleared). -/
def delete_voucher (s : DB) (vid : Nat) : Except Err DB :=
  match setPosted s vid false with
  | .error e => .error e
  | .ok s1 =>
      match deleteTxnsOfVoucher s1 vid with
      | .error e => .error e
      | .ok s2 => .ok { s2 with vouchers := s2.vouchers.filter (fun v => !(v.id == vid)) }

/-! ### Reachable states -/

/-- States reachable from a fresh database through the program's mutating
operations and the raw trigger-guarded storage statements. -/
inductive Reachable : DB → Prop
  | init : Reachable initDB
  | addAccount {s s' n ty} : Reachable s → add_account s n ty = .ok s' → Reachable s'
  | save {s s' d de es cur} : Reachable s → save_voucher s d de es cur = .ok s' → Reachable s'
  | del {s s' vid} : Reachable s → delete_voucher s vid = .ok s' → Reachable s'
  | insertTx {s s' vid aid d c} : Reachable s → insertTxn s vid aid d c = .ok s' → Reachable s'
  | updateTx {s s' tid vid aid d c} : Reachable s → updateTxn s tid vid aid d c = .ok s' → Reachable s'
  | deleteTx {s s' tid} : Reachable s → deleteTxn s tid = .ok s' → Reachable s'
  | deleteTxsOf {s s' vid} : Reachable s → deleteTxnsOfVoucher s vid = .ok s' → Reachable s'
  | setP {s s' vid p} : Reachable s → setPosted s vid p = .ok s' → Reachable s'

/-! ### The posted-balance and line invariants -/

/-- The posting condition checked by `trg_voucher_post_balanced` for one
voucher: at least two lines, and equal rounded totals. -/
def postedOK (s : DB) (vid : Nat) : Prop :=
  2 ≤ (voucherTxns s vid).length ∧
  round2 (sumDebit (voucherTxns s vid)) = round2 (sumCredit (voucherTxns s vid))

/-- Every voucher with `posted = 1` satisfies the posting condition. -/
def PostedInv (s : DB) : Prop :=
  ∀ v ∈ s.vouchers, v.posted = true → postedOK s v.id

/-- Every stored transaction line satisfies the CHECK constraints. -/
def LinesOk (s : DB) : Prop :=
  ∀ t ∈ s.transactions, lineChk t.debit t.credit = true

theorem postedOK_congr {s s' : DB} {vid : Nat}
    (h : s'.transactions.filter (fun t => t.voucher_id == vid) =
         s.transactions.filter (fun t => t.voucher_id == vid))
    (hp : postedOK s vid) : postedOK s' vid := by
  unfold postedOK voucherTxns at *
  rw [h]
  exact hp

theorem filter_filter_of_imp {α : Type} {p q : α → Bool} {l : List α}
    (h : ∀ x ∈ l, q x = true → p x = true) :
    (l.filter p).filter q = l.filter q := by
  induction l with
  | nil => rfl
  | cons x l ih =>
      have ih' := ih (fun y hy => h y (List.mem_cons_of_mem _ hy))
      by_cases hq : q x = true
      · have hp := h x (List.mem_cons_self _ _) hq
        simp [List.filter_cons, hp, hq, ih']
      · by_cases hp : p x = true
        · simp [List.filter_cons, hp, hq, ih']
        · simp [List.filter_cons, hp, hq, ih']

theorem filter_map_of_untouched {α : Type} {f : α → α} {q : α → Bool} {l : List α}
    (h : ∀ x ∈ l, (q x = true → f x = x) ∧ (q (f x) = true → q x = true)) :
    (l.map f).filter q = l.filter q := by
  induction l with
  | nil => rfl
  | cons x l ih =>
      have ih' := ih (fun y hy => h y (List.mem_cons_of_mem _ hy))
      have hx := h x (List.mem_cons_self _ _)
      by_cases hq : q x = true
      · rw [List.map_cons, List.filter_cons, List.filter_cons, hx.1 hq]
        simp [hq, ih']
      · have hqf : q (f x) = false := by
          cases hqf : q (f x)
          · rfl
          · exact absurd (hx.2 hqf) hq
        rw [List.map_cons, List.filter_cons, List.filter_cons]
        simp [hq, hqf, ih']

theorem posted_mem {s : DB} {v : Voucher} (hv : v ∈ s.vouchers) (hp : v.posted = true) :
    voucherPostedB s v.id = true := by
  unfold voucherPostedB
  exact List.any_eq_true.mpr ⟨v, hv, by simp [hp]⟩

theorem ne_of_not_posted {s : DB} {vid : Nat} (h : voucherPostedB s vid = false)
    {v : Voucher} (hv : v ∈ s.vouchers) (hp : v.posted = true) : (vid == v.id) = false := by
  by_cases hid : vid = v.id
  · subst hid
    rw [posted_mem hv hp] at h
    cases h
  · simp [hid]

/-! Success-shape lemmas for the storage primitives. -/

theorem postCheck_ok {s : DB} {vid : Nat} (h : postCheck s vid = .ok ()) :
    postedOK s vid := by
  unfold postCheck at h
  by_cases h1 : (voucherTxns s vid).length < 2
  · rw [if_pos h1] at h; exact absurd h (by simp)
  · rw [if_neg h1] at h
    by_cases h2 : round2 (sumDebit (voucherTxns s vid)) ≠ round2 (sumCredit (voucherTxns s vid))
    · rw [if_pos h2] at h; exact absurd h (by simp)
    · exact ⟨by omega, not_not.mp h2⟩

theorem insertTxn_ok {s s' : DB} {vid aid : Nat} {d c : ℚ}
    (h : insertTxn s vid aid d c = .ok s') :
    voucherPostedB s vid = false ∧ lineChk d c = true ∧
    s' = { s with
        transactions := s.transactions ++ [(⟨s.nextTid, vid, aid, d, c⟩ : Txn)],
        nextTid := s.nextTid + 1 } := by
  unfold insertTxn at h
  by_cases h1 : voucherPostedB s vid = true
  · rw [if_pos h1] at h; exact absurd h (by simp)
  · rw [if_neg h1] at h
    by_cases h2 : lineChk d c = false
    · rw [if_pos h2] at h; exact absurd h (by simp)
    · rw [if_neg h2] at h
      by_cases h3 : hasVoucherB s vid = false ∨ hasAccountB s aid = false
      · rw [if_pos h3] at h; exact absurd h (by simp)
      · rw [if_neg h3] at h
        injection h with h4
        exact ⟨by simpa using h1, by simpa using h2, h4.symm⟩

theorem deleteTxn_ok {s s' : DB} {tid : Nat} (h : deleteTxn s tid = .ok s') :
    (s.transactions.any fun t => t.id == tid && voucherPostedB s t.voucher_id) = false ∧
    s' = { s with transactions := s.transactions.filter (fun t => !(t.id == tid)) } := by
  unfold deleteTxn at h
  by_cases h1 : (s.transactions.any fun t => t.id == tid && voucherPostedB s t.voucher_id) = true
  · rw [if_pos h1] at h; exact absurd h (by simp)
  · rw [if_neg h1] at h
    injection h with h2
    exact ⟨by simpa using h1, h2.symm⟩

theorem deleteTxnsOfVoucher_ok {s s' : DB} {vid : Nat}
    (h : deleteTxnsOfVoucher s vid = .ok s') :
    ¬((s.transactions.any fun t => t.voucher_id == vid) = true ∧ voucherPostedB s vid = true) ∧
    s' = { s with transactions := s.transactions.filter (fun t => !(t.voucher_id == vid)) } := by
  unfold deleteTxnsOfVoucher at h
  by_cases h1 : (s.transactions.any fun t => t.voucher_id == vid) = true ∧ voucherPostedB s vid = true
  · rw [if_pos h1] at h; exact absurd h (by simp)
  · rw [if_neg h1] at h
    injection h with h2
    exact ⟨h1, h2.symm⟩

theorem updateTxn_ok {s s' : DB} {tid vid aid : Nat} {d c : ℚ}
    (h : updateTxn s tid vid aid d c = .ok s') :
    (s.transactions.any fun t => t.id == tid &&
        (voucherPostedB s t.voucher_id || voucherPostedB s vid)) = false ∧
    ¬((s.transactions.any fun t => t.id == tid) = true ∧ lineChk d c = false) ∧
    s' = { s with transactions := s.transactions.map fun t =>
      if t.id == tid then { t with voucher_id := vid, account_id := aid, debit := d, credit := c }
      else t } := by
  unfold updateTxn at h
  by_cases h1 : (s.transactions.any fun t => t.id == tid &&
      (voucherPostedB s t.voucher_id || voucherPostedB s vid)) = true
  · rw [if_pos h1] at h; exact absurd h (by simp)
  · rw [if_neg h1] at h
    by_cases h2 : (s.transactions.any fun t => t.id == tid) = true ∧ lineChk d c = false
    · rw [if_pos h2] at h; exact absurd h (by simp)
    · rw [if_neg h2] at h
      by_cases h3 : (s.transactions.any fun t => t.id == tid) = true ∧
          (hasVoucherB s vid = false ∨ hasAccountB s aid = false)
      · rw [if_pos h3] at h; exact absurd h (by simp)
      · rw [if_neg h3] at h
        injection h with h4
        exact ⟨by simpa using h1, h2, h4.symm⟩

theorem setPosted_true_ok {s s' : DB} {vid : Nat} (h : setPosted s vid true = .ok s') :
    (hasVoucherB s vid = true ∧ postCheck s vid = .ok () ∧
      s' = { s with vouchers := s.vouchers.map fun v =>
              if v.id == vid then { v with posted := true } else v }) ∨
    (hasVoucherB s vid = false ∧ s' = s) := by
  unfold setPosted at h
  by_cases h1 : hasVoucherB s vid = true
  · rw [if_pos (⟨rfl, h1⟩ : true = true ∧ hasVoucherB s vid = true)] at h
    cases hpc : postCheck s vid with
    | error e => rw [hpc] at h; exact absurd h (by simp)
    | ok u =>
        rw [hpc] at h
        cases u
        injection h with h2
        refine Or.inl ⟨h1, ?_, h2.symm⟩
        rfl
  · rw [if_neg (by simp [h1]), if_pos rfl] at h
    injection h with h2
    exact Or.inr ⟨by simpa using h1, h2.symm⟩

theorem setPosted_false_ok {s s' : DB} {vid : Nat} (h : setPosted s vid false = .ok s') :
    s' = { s with vouchers := s.vouchers.map fun v =>
      if v.id == vid then { v with posted := false } else v } := by
  unfold setPosted at h
  rw [if_neg (by simp), if_neg (by simp)] at h
  injection h with h2
  exact h2.symm

theorem add_account_ok {s s' : DB} {n : String} {ty : AccountType}
    (h : add_account s n ty = .ok s') :
    s' = { s with
        accounts := s.accounts ++ [(⟨s.nextAid, n, ty⟩ : Account)],
        nextAid := s.nextAid + 1 } := by
  unfold add_account at h
  by_cases h1 : (s.accounts.any fun a => lowerStr a.name == lowerStr n) = true
  · rw [if_pos h1] at h; exact absurd h (by simp)
  · rw [if_neg h1] at h
    injection h with h2
    exact h2.symm

/-! Preservation of the posted-balance invariant by every mutating operation. -/

theorem postedInv_insertTxn {s s' : DB} {vid aid : Nat} {d c : ℚ}
    (hs : PostedInv s) (h : insertTxn s vid aid d c = .ok s') : PostedInv s' := by
  obtain ⟨hnp, -, rfl⟩ := insertTxn_ok h
  intro v hv hp
  refine postedOK_congr ?_ (hs v hv hp)
  have hne : (vid == v.id) = false := ne_of_not_posted hnp hv hp
  simp [List.filter_append, hne]

theorem postedInv_deleteTxn {s s' : DB} {tid : Nat}
    (hs : PostedInv s) (h : deleteTxn s tid = .ok s') : PostedInv s' := by
  obtain ⟨hany, rfl⟩ := deleteTxn_ok h
  intro v hv hp
  refine postedOK_congr ?_ (hs v hv hp)
  refine filter_filter_of_imp ?_
  intro t ht hq
  have hfa := List.any_eq_false.mp hany t ht
  by_cases hid : (t.id == tid) = true
  · exfalso
    apply hfa
    have hteq : t.voucher_id = v.id := by simpa using hq
    have hpost : voucherPostedB s t.voucher_id = true := by
      rw [hteq]; exact posted_mem hv hp
    simp [hid, hpost]
  · simp [hid]

theorem postedInv_deleteTxnsOf {s s' : DB} {vid : Nat}
    (hs : PostedInv s) (h : deleteTxnsOfVoucher s vid = .ok s') : PostedInv s' := by
  obtain ⟨hg, rfl⟩ := deleteTxnsOfVoucher_ok h
  intro v hv hp
  by_cases hid : v.id = vid
  · exfalso
    have hpok := hs v hv hp
    have hpost : voucherPostedB s vid = true := by
      rw [← hid]; exact posted_mem hv hp
    have hlen : 0 < (voucherTxns s v.id).length := by
      have := hpok.1; omega
    obtain ⟨t, ht⟩ := List.exists_mem_of_length_pos hlen
    have ht' := List.mem_filter.mp ht
    refine hg ⟨List.any_eq_true.mpr ⟨t, ht'.1, ?_⟩, hpost⟩
    have : t.voucher_id = v.id := by simpa using ht'.2
    simp [this, hid]
  · refine postedOK_congr ?_ (hs v hv hp)
    refine filter_filter_of_imp ?_
    intro t ht hq
    have hteq : t.voucher_id = v.id := by simpa using hq
    simp [hteq, hid]

theorem postedInv_updateTxn {s s' : DB} {tid vid aid : Nat} {d c : ℚ}
    (hs : PostedInv s) (h : updateTxn s tid vid aid d c = .ok s') : PostedInv s' := by
  obtain ⟨hany, -, rfl⟩ := updateTxn_ok h
  intro v hv hp
  refine postedOK_congr ?_ (hs v hv hp)
  refine filter_map_of_untouched ?_
  intro t ht
  have hfa := List.any_eq_false.mp hany t ht
  constructor
  · intro hq
    have hteq : t.voucher_id = v.id := by simpa using hq
    have hpostOld : voucherPostedB s t.voucher_id = true := by
      rw [hteq]; exact posted_mem hv hp
    by_cases hid : (t.id == tid) = true
    · exact absurd (by simp [hid, hpostOld]) hfa
    · simp [hid]
  · intro hqf
    by_cases hid : (t.id == tid) = true
    · exfalso
      have hveq : vid = v.id := by simpa [hid] using hqf
      apply hfa
      have : voucherPostedB s vid = true := by rw [hveq]; exact posted_mem hv hp
      simp [hid, this]
    · simpa [hid] using hqf

theorem postedInv_setPosted {s s' : DB} {vid : Nat} {p : Bool}
    (hs : PostedInv s) (h : setPosted s vid p = .ok s') : PostedInv s' := by
  cases p with
  | false =>
      obtain rfl := setPosted_false_ok h
      intro v hv hp
      obtain ⟨w, hw, rfl⟩ := List.mem_map.mp hv
      by_cases hid : (w.id == vid) = true
      · rw [if_pos hid] at hp
        simp at hp
      · rw [if_neg hid] at hp ⊢
        exact postedOK_congr rfl (hs w hw hp)
  | true =>
      rcases setPosted_true_ok h with ⟨hhas, hpc, rfl⟩ | ⟨hhas, rfl⟩
      · intro v hv hp
        obtain ⟨w, hw, rfl⟩ := List.mem_map.mp hv
        by_cases hid : (w.id == vid) = true
        · have hweq : w.id = vid := by simpa using hid
          rw [if_pos hid]
          refine postedOK_congr rfl ?_
          show postedOK s ({ w with posted := true } : Voucher).id
          rw [show ({ w with posted := true } : Voucher).id = vid from hweq]
          exact postCheck_ok hpc
        · rw [if_neg hid] at hp ⊢
          exact postedOK_congr rfl (hs w hw hp)
      · exact hs

theorem postedInv_add_account {s s' : DB} {n : String} {ty : AccountType}
    (hs : PostedInv s) (h : add_account s n ty = .ok s') : PostedInv s' := by
  obtain rfl := add_account_ok h
  intro v hv hp
  exact postedOK_congr rfl (hs v hv hp)

theorem postedInv_insertLines {vid : Nat} {es : List Entry} :
    ∀ {s s' : DB}, PostedInv s → insertLines s vid es = .ok s' → PostedInv s' := by
  induction es with
  | nil =>
      intro s s' hs h
      injection h with h2
      exact h2 ▸ hs
  | cons e rest ih =>
      intro s s' hs h
      unfold insertLines at h
      cases hins : insertTxn s vid e.account_id (round2 e.debit) (round2 e.credit) with
      | error err => rw [hins] at h; exact absurd h (by simp)
      | ok s1 =>
          rw [hins] at h
          exact ih (postedInv_insertTxn hs hins) h

theorem postedInv_save {s s' : DB} {d de : String} {es : List Entry} {cur : Option Nat}
    (hs : PostedInv s) (h : save_voucher s d de es cur = .ok s') : PostedInv s' := by
  unfold save_voucher at h
  by_cases h1 : es = []
  · rw [if_pos h1] at h; exact absurd h (by simp)
  · rw [if_neg h1] at h
    by_cases h2 : totalDebit es ≠ totalCredit es
    · rw [if_pos h2] at h; exact absurd h (by simp)
    · rw [if_neg h2] at h
      by_cases h3 : is_valid_date (strip d) = false
      · rw [if_pos h3] at h; exact absurd h (by simp)
      · rw [if_neg h3] at h
        split at h
        · -- cur = none
          have hX : PostedInv { s with
              vouchers := s.vouchers ++ [⟨s.nextVid, strip d, strip de, false⟩],
              nextVid := s.nextVid + 1 } := by
            intro v hv hp
            rcases List.mem_append.mp hv with hv' | hv'
            · exact postedOK_congr rfl (hs v hv' hp)
            · have : v = ⟨s.nextVid, strip d, strip de, false⟩ := by simpa using hv'
              rw [this] at hp
              simp at hp
          cases hins : insertLines { s with
              vouchers := s.vouchers ++ [⟨s.nextVid, strip d, strip de, false⟩],
              nextVid := s.nextVid + 1 } s.nextVid es with
          | error e => rw [hins] at h; exact absurd h (by simp)
          | ok s2 =>
              rw [hins] at h
              exact postedInv_setPosted (postedInv_insertLines hX hins) h
        · -- cur = some vid
          rename_i vid
          have hX : PostedInv { s with vouchers := s.vouchers.map fun v =>
              if v.id == vid then ⟨v.id, strip d, strip de, false⟩ else v } := by
            intro v hv hp
            obtain ⟨w, hw, rfl⟩ := List.mem_map.mp hv
            by_cases hid : (w.id == vid) = true
            · rw [if_pos hid] at hp; simp at hp
            · rw [if_neg hid] at hp ⊢
              exact postedOK_congr rfl (hs w hw hp)
          cases hdel : deleteTxnsOfVoucher { s with vouchers := s.vouchers.map fun v =>
              if v.id == vid then ⟨v.id, strip d, strip de, false⟩ else v } vid with
          | error e => rw [hdel] at h; exact absurd h (by simp)
          | ok s2 =>
              rw [hdel] at h
              have h' : (match insertLines s2 vid es with
                  | .error e => (Except.error e : Except Err DB)
                  | .ok s3 => setPosted s3 vid true) = .ok s' := h
              have hs2 := postedInv_deleteTxnsOf hX hdel
              cases hins : insertLines s2 vid es with
              | error e => rw [hins] at h'; exact absurd h' (by simp)
              | ok s3 =>
                  rw [hins] at h'
                  exact postedInv_setPosted (postedInv_insertLines hs2 hins) h'

theorem postedInv_delete {s s' : DB} {vid : Nat}
    (hs : PostedInv s) (h : delete_voucher s vid = .ok s') : PostedInv s' := by
  unfold delete_voucher at h
  cases hsp : setPosted s vid false with
  | error e => rw [hsp] at h; exact absurd h (by simp)
  | ok s1 =>
      rw [hsp] at h
      have h' : (match deleteTxnsOfVoucher s1 vid with
          | .error e => (Except.error e : Except Err DB)
          | .ok s2 => .ok { s2 with vouchers := s2.vouchers.filter (fun v => !(v.id == vid)) })
          = .ok s' := h
      have hs1 : PostedInv s1 := postedInv_setPosted hs hsp
      cases hdel : deleteTxnsOfVoucher s1 vid with
      | error e => rw [hdel] at h'; exact absurd h' (by simp)
      | ok s2 =>
          rw [hdel] at h'
          have hs2 : PostedInv s2 := postedInv_deleteTxnsOf hs1 hdel
          injection h' with h2
          rw [← h2]
          intro v hv hp
          have hv' := List.mem_filter.mp hv
          exact postedOK_congr rfl (hs2 v hv'.1 hp)

/-- Helper for C1: every reachable state satisfies the posted-balance
invariant. -/
theorem reachable_postedInv {s : DB} (h : Reachable s) : PostedInv s := by
  induction h with
  | init => intro v hv _; exact absurd hv (by simp [initDB])
  | addAccount _ heq ih => exact postedInv_add_account ih heq
  | save _ heq ih => exact postedInv_save ih heq
  | del _ heq ih => exact postedInv_delete ih heq
  | insertTx _ heq ih => exact postedInv_insertTxn ih heq
  | updateTx _ heq ih => exact postedInv_updateTxn ih heq
  | deleteTx _ heq ih => exact postedInv_deleteTxn ih heq
  | deleteTxsOf _ heq ih => exact postedInv_deleteTxnsOf ih heq
  | setP _ heq ih => exact postedInv_setPosted ih heq

/-! Preservation of the line CHECK invariant. -/

theorem linesOk_insertTxn {s s' : DB} {vid aid : Nat} {d c : ℚ}
    (hs : LinesOk s) (h : insertTxn s vid aid d c = .ok s') : LinesOk s' := by
  obtain ⟨-, hchk, rfl⟩ := insertTxn_ok h
  intro t ht
  rcases List.mem_append.mp ht with ht' | ht'
  · exact hs t ht'
  · have : t = ⟨s.nextTid, vid, aid, d, c⟩ := by simpa using ht'
    rw [this]
    simpa using hchk

theorem linesOk_updateTxn {s s' : DB} {tid vid aid : Nat} {d c : ℚ}
    (hs : LinesOk s) (h : updateTxn s tid vid aid d c = .ok s') : LinesOk s' := by
  obtain ⟨-, hchk, rfl⟩ := updateTxn_ok h
  intro t' ht'
  obtain ⟨t, ht, rfl⟩ := List.mem_map.mp ht'
  by_cases hid : (t.id == tid) = true
  · rw [if_pos hid]
    have hany : (s.transactions.any fun t => t.id == tid) = true :=
      List.any_eq_true.mpr ⟨t, ht, hid⟩
    by_cases hc : lineChk d c = true
    · simpa using hc
    · exact absurd ⟨hany, by simpa using hc⟩ hchk
  · rw [if_neg hid]
    exact hs t ht

theorem linesOk_deleteTxn {s s' : DB} {tid : Nat}
    (hs : LinesOk s) (h : deleteTxn s tid = .ok s') : LinesOk s' := by
  obtain ⟨-, rfl⟩ := deleteTxn_ok h
  intro t ht
  exact hs t (List.mem_filter.mp ht).1

theorem linesOk_deleteTxnsOf {s s' : DB} {vid : Nat}
    (hs : LinesOk s) (h : deleteTxnsOfVoucher s vid = .ok s') : LinesOk s' := by
  obtain ⟨-, rfl⟩ := deleteTxnsOfVoucher_ok h
  intro t ht
  exact hs t (List.mem_filter.mp ht).1

theorem linesOk_setPosted {s s' : DB} {vid : Nat} {p : Bool}
    (hs : LinesOk s) (h : setPosted s vid p = .ok s') : LinesOk s' := by
  cases p with
  | false =>
      obtain rfl := setPosted_false_ok h
      exact hs
  | true =>
      rcases setPosted_true_ok h with ⟨-, -, rfl⟩ | ⟨-, rfl⟩
      · exact hs
      · exact hs

theorem linesOk_add_account {s s' : DB} {n : String} {ty : AccountType}
    (hs : LinesOk s) (h : add_account s n ty = .ok s') : LinesOk s' := by
  obtain rfl := add_account_ok h
  exact hs

theorem linesOk_insertLines {vid : Nat} {es : List Entry} :
    ∀ {s s' : DB}, LinesOk s → insertLines s vid es = .ok s' → LinesOk s' := by
  induction es with
  | nil =>
      intro s s' hs h
      injection h with h2
      exact h2 ▸ hs
  | cons e rest ih =>
      intro s s' hs h
      unfold insertLines at h
      cases hins : insertTxn s vid e.account_id (round2 e.debit) (round2 e.credit) with
      | error err => rw [hins] at h; exact absurd h (by simp)
      | ok s1 =>
          rw [hins] at h
          exact ih (linesOk_insertTxn hs hins) h

theorem linesOk_save {s s' : DB} {d de : String} {es : List Entry} {cur : Option Nat}
    (hs : LinesOk s) (h : save_voucher s d de es cur = .ok s') : LinesOk s' := by
  unfold save_voucher at h
  by_cases h1 : es = []
  · rw [if_pos h1] at h; exact absurd h (by simp)
  · rw [if_neg h1] at h
    by_cases h2 : totalDebit es ≠ totalCredit es
    · rw [if_pos h2] at h; exact absurd h (by simp)
    · rw [if_neg h2] at h
      by_cases h3 : is_valid_date (strip d) = false
      · rw [if_pos h3] at h; exact absurd h (by simp)
      · rw [if_neg h3] at h
        split at h
        · have hX : LinesOk { s with
              vouchers := s.vouchers ++ [⟨s.nextVid, strip d, strip de, false⟩],
              nextVid := s.nextVid + 1 } := hs
          cases hins : insertLines { s with
              vouchers := s.vouchers ++ [⟨s.nextVid, strip d, strip de, false⟩],
              nextVid := s.nextVid + 1 } s.nextVid es with
          | error e => rw [hins] at h; exact absurd h (by simp)
          | ok s2 =>
              rw [hins] at h
              exact linesOk_setPosted (linesOk_insertLines hX hins) h
        · rename_i vid
          have hX : LinesOk { s with vouchers := s.vouchers.map fun v =>
              if v.id == vid then ⟨v.id, strip d, strip de, false⟩ else v } := hs
          cases hdel : deleteTxnsOfVoucher { s with vouchers := s.vouchers.map fun v =>
              if v.id == vid then ⟨v.id, strip d, strip de, false⟩ else v } vid with
          | error e => rw [hdel] at h; exact absurd h (by simp)
          | ok s2 =>
              rw [hdel] at h
              have h' : (match insertLines s2 vid es with
                  | .error e => (Except.error e : Except Err DB)
                  | .ok s3 => setPosted s3 vid true) = .ok s' := h
              have hs2 := linesOk_deleteTxnsOf hX hdel
              cases hins : insertLines s2 vid es with
              | error e => rw [hins] at h'; exact absurd h' (by simp)
              | ok s3 =>
                  rw [hins] at h'
                  exact linesOk_setPosted (linesOk_insertLines hs2 hins) h'

theorem linesOk_delete {s s' : DB} {vid : Nat}
    (hs : LinesOk s) (h : delete_voucher s vid = .ok s') : LinesOk s' := by
  unfold delete_voucher at h
  cases hsp : setPosted s vid false with
  | error e => rw [hsp] at h; exact absurd h (by simp)
  | ok s1 =>
      rw [hsp] at h
      have h' : (match deleteTxnsOfVoucher s1 vid with
          | .error e => (Except.error e : Except Err DB)
          | .ok s2 => .ok { s2 with vouchers := s2.vouchers.filter (fun v => !(v.id == vid)) })
          = .ok s' := h
      have hs1 : LinesOk s1 := linesOk_setPosted hs hsp
      cases hdel : deleteTxnsOfVoucher s1 vid with
      | error e => rw [hdel] at h'; exact absurd h' (by simp)
      | ok s2 =>
          rw [hdel] at h'
          have hs2 : LinesOk s2 := linesOk_deleteTxnsOf hs1 hdel
          injection h' with h2
          rw [← h2]
          exact hs2

/-- Helper for C4: every stored line in every reachable state satisfies the
CHECK constraints. -/
theorem reachable_linesOk {s : DB} (h : Reachable s) : LinesOk s := by
  induction h with
  | init => intro t ht; exact absurd ht (by simp [initDB])
  | addAccount _ heq ih => exact linesOk_add_account ih heq
  | save _ heq ih => exact linesOk_save ih heq
  | del _ heq ih => exact linesOk_delete ih heq
  | insertTx _ heq ih => exact linesOk_insertTxn ih heq
  | updateTx _ heq ih => exact linesOk_updateTxn ih heq
  | deleteTx _ heq ih => exact linesOk_deleteTxn ih heq
  | deleteTxsOf _ heq ih => exact linesOk_deleteTxnsOf ih heq
  | setP _ heq ih => exact linesOk_setPosted ih heq

/-! ### Report engine -/

/-- Natural-balance delta of one line given the account type:
`debit - credit` for Asset/Expense, `credit - debit` otherwise. -/
def deltaOf (ty : AccountType) (debit credit : ℚ) : ℚ :=
  match ty with
  | .Asset | .Expense => debit - credit
  | .Liability | .Income => credit - debit

/-- One row of the General Ledger join
`SELECT v.date, v.description, t.debit, t.credit … ORDER BY v.date, v.id, t.id`,
keeping the sort keys. -/
structure GLJoin where
  date : String
  vid : Nat
  tid : Nat
  description : String
  debit : ℚ
  credit : ℚ
deriving DecidableEq

/-- One emitted General Ledger report row. -/
structure GLRow where
  date : String
  description : String
  debit : ℚ
  credit : ℚ
  balance : ℚ
deriving DecidableEq

/-- The `ORDER BY v.date, v.id, t.id` order. -/
def glLe (x y : GLJoin) : Prop :=
  sLt x.date y.date = true ∨
    (x.date = y.date ∧ (x.vid < y.vid ∨ (x.vid = y.vid ∧ x.tid ≤ y.tid)))

instance : DecidableRel glLe := fun x y => by unfold glLe; infer_instance

instance : IsTrans GLJoin glLe where
  trans a b c hab hbc := by
    unfold glLe at *
    simp only [sLt_iff] at hab hbc ⊢
    rcases hab with h1 | ⟨e1, h1⟩
    · rcases hbc with h2 | ⟨e2, h2⟩
      · exact Or.inl (lt_trans h1 h2)
      · exact Or.inl (e2 ▸ h1)
    · rcases hbc with h2 | ⟨e2, h2⟩
      · exact Or.inl (e1 ▸ h2)
      · refine Or.inr ⟨e1.trans e2, ?_⟩
        rcases h1 with h1 | ⟨f1, h1⟩
        · rcases h2 with h2 | ⟨f2, h2⟩
          · exact Or.inl (lt_trans h1 h2)
          · exact Or.inl (f2 ▸ h1)
        · rcases h2 with h2 | ⟨f2, h2⟩
          · exact Or.inl (f1 ▸ h2)
          · exact Or.inr ⟨f1.trans f2, le_trans h1 h2⟩

instance : IsTotal GLJoin glLe where
  total a b := by
    unfold glLe
    simp only [sLt_iff]
    rcases lt_trichotomy a.date b.date with h | h | h
    · exact Or.inl (Or.inl h)
    · rcases lt_trichotomy a.vid b.vid with h2 | h2 | h2
      · exact Or.inl (Or.inr ⟨h, Or.inl h2⟩)
      · rcases Nat.le_total a.tid b.tid with h3 | h3
        · exact Or.inl (Or.inr ⟨h, Or.inr ⟨h2, h3⟩⟩)
        · exact Or.inr (Or.inr ⟨h.symm, Or.inr ⟨h2.symm, h3⟩⟩)
      · exact Or.inr (Or.inr ⟨h.symm, Or.inl h2⟩)
    · exact Or.inr (Or.inl h)

/-- `v.date BETWEEN start AND end` (lexicographic TEXT comparison). -/
def dateInRange (dt startD endD : String) : Bool := sLe startD dt && sLe dt endD

/-- The in-range joined row set of the General Ledger query
(`t.account_id = ? AND v.date BETWEEN ? AND ?`). -/
def glRowsUnsorted (s : DB) (aid : Nat) (startD endD : String) : List GLJoin :=
  s.transactions.filterMap fun t =>
    if t.account_id == aid then
      match s.vouchers.find? (fun v => v.id == t.voucher_id) with
      | some v =>
          if dateInRange v.date startD endD then
            some ⟨v.date, v.id, t.id, v.description, t.debit, t.credit⟩
          else none
      | none => none
    else none

/-- The opening-balance subquery of `generate_general_ledger`: natural-balance
sum over the account's lines with voucher date strictly before the start. -/
def glOpeningSum (s : DB) (aid : Nat) (ty : AccountType) (startD : String) : ℚ :=
  (s.transactions.filterMap fun t =>
    if t.account_id == aid then
      match s.vouchers.find? (fun v => v.id == t.voucher_id) with
      | some v => if sLt v.date startD then some (deltaOf ty t.debit t.credit) else none
      | none => none
    else none).sum

/-- Natural-balance delta of one joined GL row. -/
def deltaJ (ty : AccountType) (r : GLJoin) : ℚ := deltaOf ty r.debit r.credit

/-- The running-balance loop of `generate_general_ledger`:
`balance += delta; emit (date, description, debit, credit, balance)`. -/
def glScan (ty : AccountType) (bal : ℚ) : List GLJoin → List GLRow
  | [] => []
  | r :: rest =>
      ⟨r.date, r.description, r.debit, r.credit, bal + deltaJ ty r⟩ ::
        glScan ty (bal + deltaJ ty r) rest

/-- `generate_general_ledger`: validate the date range, resolve the account,
read the in-range rows ordered by `(v.date, v.id, t.id)`, seed the running
balance with `round(opening, 2)` and accumulate. -/
def generate_general_ledger (s : DB) (accName startD endD : String) :
    Except Err (List GLRow) :=
  if is_valid_date startD = false ∨ is_valid_date endD = false then .error .InvalidDate
  else if sLt endD startD then .error .InvalidDateRange
  else if accName = "" then .error .NoAccount
  else
    match s.accounts.find? (fun a => a.name == accName) with
    | none => .error .NoAccount
    | some a =>
        .ok (glScan a.type (round2 (glOpeningSum s a.id a.type startD))
          (List.insertionSort glLe (glRowsUnsorted s a.id startD endD)))

/-- The lines of one account joined to vouchers dated `<= endD`
(the Balance Sheet join). -/
def cumTxns (s : DB) (aid : Nat) (endD : String) : List Txn :=
  s.transactions.filter fun t =>
    t.account_id == aid &&
      (match s.vouchers.find? (fun v => v.id == t.voucher_id) with
       | some v => sLe v.date endD
       | none => false)

/-- `generate_bs`: one `(name, SUM(debit - credit), 0)` row per Asset account
with at least one line dated `<= endD` (the `GROUP BY a.name` emits no row
for an inactive account), then one `(name, 0, SUM(credit - debit))` row per
such Liability account; the start of the filter range is never used in the
queries. -/
def generate_bs (s : DB) (startD endD : String) : Except Err (List (String × ℚ × ℚ)) :=
  if is_valid_date startD = false ∨ is_valid_date endD = false then .error .InvalidDate
  else if sLt endD startD then .error .InvalidDateRange
  else
    .ok (((s.accounts.filter fun a =>
            a.type == AccountType.Asset && !(cumTxns s a.id endD).isEmpty).map fun a =>
              (a.name, ((cumTxns s a.id endD).map fun t => t.debit - t.credit).sum, (0 : ℚ))) ++
         ((s.accounts.filter fun a =>
            a.type == AccountType.Liability && !(cumTxns s a.id endD).isEmpty).map fun a =>
              (a.name, (0 : ℚ), ((cumTxns s a.id endD).map fun t => t.credit - t.debit).sum)))

/-- Comma-splitting of the "Cash Accts" filter field:
`[n.strip() for n in raw_cash.split(",") if n.strip()]`. -/
def parseCashNames (raw : String) : List String :=
  ((splitOnChar ',' raw.data).map fun g => strip ⟨g⟩).filter (fun n => n ≠ "")

/-- Account-name resolution of `generate_cash_flow`: the explicit names when
any were supplied, else every account whose name matches
`LOWER(name) LIKE '%cash%' OR LOWER(name) LIKE '%bank%'`. -/
def resolveCashNames (s : DB) (raw : String) : List String :=
  if parseCashNames raw = [] then
    (s.accounts.filter fun a =>
      containsSub (lowerStr a.name) "cash" || containsSub (lowerStr a.name) "bank").map
      Account.name
  else parseCashNames raw

/-- The in-range lines of one account (`v.date BETWEEN ? AND ?`). -/
def rangeTxns (s : DB) (aid : Nat) (startD endD : String) : List Txn :=
  s.transactions.filter fun t =>
    t.account_id == aid &&
      (match s.vouchers.find? (fun v => v.id == t.voucher_id) with
       | some v => dateInRange v.date startD endD
       | none => false)

/-- Ordering of the cash-flow rows (`GROUP BY a.name ORDER BY a.name`). -/
def cfLe (x y : String × ℚ × ℚ) : Prop := sLe x.1 y.1 = true

instance : DecidableRel cfLe := fun x y => by unfold cfLe; infer_instance

instance : IsTrans (String × ℚ × ℚ) cfLe where
  trans a b c hab hbc := by
    unfold cfLe at *
    simp only [sLe_iff] at hab hbc ⊢
    exact le_trans hab hbc

instance : IsTotal (String × ℚ × ℚ) cfLe where
  total a b := by
    unfold cfLe
    simp only [sLe_iff]
    exact le_total a.1 b.1

/-- The grouped per-account rows of the cash-flow query:
`(a.name, SUM(t.debit), SUM(t.credit))` for each selected account with at
least one in-range line, ordered by name. -/
def cfGroup (s : DB) (names : List String) (startD endD : String) :
    List (String × ℚ × ℚ) :=
  List.insertionSort cfLe
    ((s.accounts.filter fun a =>
        names.contains a.name && !(rangeTxns s a.id startD endD).isEmpty).map fun a =>
      (a.name, sumDebit (rangeTxns s a.id startD endD),
        sumCredit (rangeTxns s a.id startD endD)))

/-- `generate_cash_flow`: validate dates, resolve the account names, fail
when none resolve, else emit the per-account rows followed by the trailing
`("Net Cash", total inflow, total outflow)` row. -/
def generate_cash_flow (s : DB) (raw startD endD : String) :
    Except Err (List (String × ℚ × ℚ)) :=
  if is_valid_date startD = false ∨ is_valid_date endD = false then .error .InvalidDate
  else if sLt endD startD then .error .InvalidDateRange
  else if resolveCashNames s raw = [] then .error .NoCashAccounts
  else
    .ok (cfGroup s (resolveCashNames s raw) startD endD ++
      [("Net Cash",
        ((cfGroup s (resolveCashNames s raw) startD endD).map fun r => r.2.1).sum,
        ((cfGroup s (resolveCashNames s raw) startD endD).map fun r => r.2.2).sum)])

/-! ### Totals algebra -/

theorem totalDebit_eq (es : List Entry) :
    totalDebit es = ((es.map fun e => round2 e.debit)).sum := by
  unfold totalDebit
  exact is2dp_sum fun x hx => by
    obtain ⟨e, he, rfl⟩ := List.mem_map.mp hx
    exact is2dp_round2 _

theorem totalCredit_eq (es : List Entry) :
    totalCredit es = ((es.map fun e => round2 e.credit)).sum := by
  unfold totalCredit
  exact is2dp_sum fun x hx => by
    obtain ⟨e, he, rfl⟩ := List.mem_map.mp hx
    exact is2dp_round2 _

theorem is2dp_totalDebit (es : List Entry) : Is2dp (totalDebit es) := is2dp_round2 _

theorem is2dp_totalCredit (es : List Entry) : Is2dp (totalCredit es) := is2dp_round2 _

/-! ### Behaviour of `save_voucher` before the atomic unit -/

theorem save_voucher_empty (s : DB) (d de : String) (cur : Option Nat) :
    save_voucher s d de [] cur = .error .NoLines := by
  unfold save_voucher
  rw [if_pos rfl]

theorem save_voucher_unbalanced (s : DB) (d de : String) (es : List Entry)
    (cur : Option Nat) (h : totalDebit es ≠ totalCredit es) :
    save_voucher s d de es cur = .error .Unbalanced := by
  have hne : es ≠ [] := by
    intro he
    subst he
    exact h rfl
  unfold save_voucher
  rw [if_neg hne, if_pos h]

theorem save_voucher_bad_date (s : DB) (d de : String) (es : List Entry)
    (cur : Option Nat) (hne : es ≠ []) (hbal : totalDebit es = totalCredit es)
    (hd : is_valid_date (strip d) = false) :
    save_voucher s d de es cur = .error .InvalidDate := by
  unfold save_voucher
  rw [if_neg hne, if_neg (fun hn => hn hbal), if_pos hd]

theorem round2_zero : round2 (0 : ℚ) = 0 := is2dp_zero

theorem is2dp_abs {a : ℚ} (ha : Is2dp a) : Is2dp |a| := by
  rcases abs_choice a with h | h
  · rw [h]; exact ha
  · rw [h]; exact is2dp_neg ha

theorem totalDebit_append_one (es : List Entry) (e : Entry) :
    totalDebit (es ++ [e]) = round2 ((es.map fun x => round2 x.debit).sum + round2 e.debit) := by
  unfold totalDebit
  rw [List.map_append, List.sum_append]
  simp

theorem totalCredit_append_one (es : List Entry) (e : Entry) :
    totalCredit (es ++ [e]) = round2 ((es.map fun x => round2 x.credit).sum + round2 e.credit) := by
  unfold totalCredit
  rw [List.map_append, List.sum_append]
  simp

/-! ### Example states used by the witnesses -/

/-- Two accounts, no vouchers: the state after adding `Cash` and `Revenue`. -/
def exAccounts : DB := ⟨[⟨1, "Cash", .Asset⟩, ⟨2, "Revenue", .Income⟩], [], [], 3, 1, 1⟩

/-- State after `Cash` only. -/
def exCashOnly : DB := ⟨[⟨1, "Cash", .Asset⟩], [], [], 2, 1, 1⟩

/-- The state `exAccounts` after saving the balanced Scenario-A voucher. -/
def exPosted : DB := ⟨[⟨1, "Cash", .Asset⟩, ⟨2, "Revenue", .Income⟩],
  [⟨1, "2024-01-01", "Sale", true⟩],
  [⟨1, 1, 1, 100, 0⟩, ⟨2, 1, 2, 0, 100⟩], 3, 2, 3⟩

theorem exPosted_reachable : Reachable exPosted := by
  have h1 : Reachable exCashOnly :=
    Reachable.addAccount Reachable.init
      (show add_account initDB "Cash" .Asset = .ok exCashOnly by decide)
  have h2 : Reachable exAccounts :=
    Reachable.addAccount h1
      (show add_account exCashOnly "Revenue" .Income = .ok exAccounts by decide)
  exact Reachable.save h2
    (show save_voucher exAccounts "2024-01-01" "Sale"
      [⟨1, "Cash", 100, 0⟩, ⟨2, "Revenue", 0, 100⟩] none = .ok exPosted by decide)

/-! ### Claim C2 -/

/-- C2: an unbalanced line list (rounded total debit different from rounded
total credit) makes `save_voucher` fail with `Unbalanced` before anything is
written; in this embedding an `.error` result is exactly the rolled-back
atomic unit, so no voucher row and no transaction rows are persisted and no
partial write is observable. -/
theorem c2_unbalanced_save_rejected (s : DB) (d de : String) (es : List Entry)
    (cur : Option Nat) (h : totalDebit es ≠ totalCredit es) :
    save_voucher s d de es cur = .error .Unbalanced :=
  save_voucher_unbalanced s d de es cur h

/-- Witness for C2 (Scenario B: debit 100 against credit 90). -/
theorem c2_witness :
    save_voucher exAccounts "2024-01-01" "Sale"
      [⟨1, "Cash", 100, 0⟩, ⟨2, "Revenue", 0, 90⟩] none = .error .Unbalanced :=
  c2_unbalanced_save_rejected exAccounts "2024-01-01" "Sale"
    [⟨1, "Cash", 100, 0⟩, ⟨2, "Revenue", 0, 90⟩] none (by decide)

/-! ### Claim C6 -/

/-- C6 counterexample: a save whose date is not a valid `YYYY-MM-DD` string
can still fail with `Unbalanced`, because `save_voucher` checks the rounded
totals before it checks the date. -/
theorem c6_counterexample :
    is_valid_date (strip "not-a-date") = false ∧
    save_voucher exAccounts "not-a-date" "" [⟨1, "Cash", 100, 0⟩] none
      = .error .Unbalanced := by
  constructor
  · decide
  · decide

/-- C6 (amended): `save_voucher` validates in this order: empty line list
first (`NoLines`), then the rounded-totals comparison (`Unbalanced`), and the
date format only after both — so a save with an invalid date and unbalanced
non-empty lines fails with `Unbalanced`, not `InvalidDate`. -/
theorem c6_validation_order (s : DB) (d de : String) (es : List Entry)
    (cur : Option Nat) :
    (es = [] → save_voucher s d de es cur = .error .NoLines) ∧
    (totalDebit es ≠ totalCredit es → save_voucher s d de es cur = .error .Unbalanced) ∧
    (es ≠ [] → totalDebit es = totalCredit es → is_valid_date (strip d) = false →
      save_voucher s d de es cur = .error .InvalidDate) := by
  refine ⟨?_, save_voucher_unbalanced s d de es cur, save_voucher_bad_date s d de es cur⟩
  intro he
  subst he
  exact save_voucher_empty s d de cur

/-- Witness for C6: each of the three validation outcomes at a concrete input. -/
theorem c6_witness :
    save_voucher exAccounts "2024-01-01" "x" [] none = .error .NoLines ∧
    save_voucher exAccounts "bad" "x" [⟨1, "Cash", 100, 0⟩] none = .error .Unbalanced ∧
    save_voucher exAccounts "bad" "x" [⟨1, "Cash", 100, 0⟩, ⟨2, "Revenue", 0, 100⟩] none
      = .error .InvalidDate :=
  ⟨(c6_validation_order exAccounts "2024-01-01" "x" [] none).1 rfl,
   (c6_validation_order exAccounts "bad" "x" [⟨1, "Cash", 100, 0⟩] none).2.1 (by decide),
   (c6_validation_order exAccounts "bad" "x"
      [⟨1, "Cash", 100, 0⟩, ⟨2, "Revenue", 0, 100⟩] none).2.2
      (by decide) (by decide) (by decide)⟩

/-! ### Claim C9 -/

/-- C9: on a non-empty draft line list with a valid selected account,
`add_balancing_line` is the identity when the rounded totals already agree;
otherwise it appends exactly one line that satisfies the line invariant
(one side strictly positive, the other zero) and the rounded totals of the
extended list agree. -/
theorem c9_balancing_line (s : DB) (entries : List Entry) (accName : String)
    (a : Account) (hne : entries ≠ [])
    (hacc : s.accounts.find? (fun x => x.name == accName) = some a) :
    (totalDebit entries = totalCredit entries →
      add_balancing_line s entries accName = .ok entries) ∧
    (totalDebit entries ≠ totalCredit entries →
      ∃ e : Entry,
        add_balancing_line s entries accName = .ok (entries ++ [e]) ∧
        ((0 < e.debit ∧ e.credit = 0) ∨ (0 < e.credit ∧ e.debit = 0)) ∧
        totalDebit (entries ++ [e]) = totalCredit (entries ++ [e])) := by
  have hdq : balancingDiff entries = totalDebit entries - totalCredit entries :=
    is2dp_sub (is2dp_totalDebit entries) (is2dp_totalCredit entries)
  have hsd : Is2dp ((entries.map fun x => round2 x.debit).sum) :=
    is2dp_sum fun x hx => by
      obtain ⟨e', he', rfl⟩ := List.mem_map.mp hx
      exact is2dp_round2 _
  have hsc : Is2dp ((entries.map fun x => round2 x.credit).sum) :=
    is2dp_sum fun x hx => by
      obtain ⟨e', he', rfl⟩ := List.mem_map.mp hx
      exact is2dp_round2 _
  constructor
  · intro hbal
    have h0 : balancingDiff entries = 0 := by rw [hdq, hbal, sub_self]
    simp only [add_balancing_line, if_neg hne, hacc, if_pos h0]
  · intro hbal
    have h0 : ¬ balancingDiff entries = 0 := by
      rw [hdq]
      exact sub_ne_zero_of_ne hbal
    by_cases hpos : 0 < balancingDiff entries
    · refine ⟨⟨a.id, accName, 0, balancingDiff entries⟩, ?_, ?_, ?_⟩
      · simp only [add_balancing_line, if_neg hne, hacc, if_neg h0, if_pos hpos]
      · exact Or.inr ⟨hpos, rfl⟩
      · rw [totalDebit_append_one, totalCredit_append_one]
        dsimp only
        rw [round2_zero, add_zero,
          show round2 (balancingDiff entries) = balancingDiff entries from is2dp_round2 _,
          hdq, totalDebit_eq, totalCredit_eq,
          show ((entries.map fun x => round2 x.credit).sum +
              (((entries.map fun x => round2 x.debit).sum) -
                ((entries.map fun x => round2 x.credit).sum)))
            = (entries.map fun x => round2 x.debit).sum from by ring]
    · have hneg : balancingDiff entries < 0 :=
        lt_of_le_of_ne (le_of_not_lt hpos) h0
      refine ⟨⟨a.id, accName, |balancingDiff entries|, 0⟩, ?_, ?_, ?_⟩
      · simp only [add_balancing_line, if_neg hne, hacc, if_neg h0, if_neg hpos]
      · exact Or.inl ⟨abs_pos.mpr h0, rfl⟩
      · rw [totalDebit_append_one, totalCredit_append_one]
        dsimp only
        rw [round2_zero, add_zero,
          show round2 |balancingDiff entries| = |balancingDiff entries| from
            is2dp_abs (is2dp_round2 _),
          abs_of_neg hneg, hdq, totalDebit_eq, totalCredit_eq,
          show ((entries.map fun x => round2 x.debit).sum +
              -(((entries.map fun x => round2 x.debit).sum) -
                ((entries.map fun x => round2 x.credit).sum)))
            = (entries.map fun x => round2 x.credit).sum from by ring]

/-- Witness for C9: an unbalanced 100/0 list gets a credit-100 balancing
line, and a balanced list is returned unchanged. -/
theorem c9_witness :
    add_balancing_line exAccounts [⟨1, "Cash", 100, 0⟩] "Revenue"
      = .ok ([⟨1, "Cash", 100, 0⟩] ++ [⟨2, "Revenue", 0, 100⟩]) ∧
    add_balancing_line exAccounts [⟨1, "Cash", 100, 0⟩, ⟨2, "Revenue", 0, 100⟩] "Revenue"
      = .ok [⟨1, "Cash", 100, 0⟩, ⟨2, "Revenue", 0, 100⟩] := by
  constructor
  · obtain ⟨e, he, -, -⟩ :=
      (c9_balancing_line exAccounts [⟨1, "Cash", 100, 0⟩] "Revenue"
        ⟨2, "Revenue", .Income⟩ (by decide) (by decide)).2 (by decide)
    have : e = ⟨2, "Revenue", 0, 100⟩ := by
      have h1 := he
      rw [show add_balancing_line exAccounts [⟨1, "Cash", 100, 0⟩] "Revenue"
          = .ok ([⟨1, "Cash", 100, 0⟩] ++ [⟨2, "Revenue", 0, 100⟩]) from by decide] at h1
      injection h1 with h2
      have := List.append_inj_right h2.symm rfl
      simpa using this
    rw [← this]
    exact he
  · exact (c9_balancing_line exAccounts [⟨1, "Cash", 100, 0⟩, ⟨2, "Revenue", 0, 100⟩]
      "Revenue" ⟨2, "Revenue", .Income⟩ (by decide) (by decide)).1 (by decide)

/-! ### Claim C10 -/

/-- C10 counterexample: `float()` accepts the spellings `nan` and `inf`,
and `round(·, 2)` returns the special unchanged, so on the input `"nan"`
`parse_amount` returns a value that is neither `None` nor a number rounded
to two decimal places (and on `"inf"` / `"-inf"` an infinity); moreover
`float()` reads exponent and underscore spellings, so `"1e2"` and `"1_0"`
are numeric text, parsed to `100.0` and `10.0` rather than refused. -/
theorem c10_counterexample :
    parse_amount (some "nan") = some PyFloat.nan ∧
    PyFloat.nan.isNum = false ∧
    parse_amount (some "inf") = some (PyFloat.inf false) ∧
    parse_amount (some "-inf") = some (PyFloat.inf true) ∧
    parse_amount (some "1e2") = some (PyFloat.num 100) ∧
    parse_amount (some "1_0") = some (PyFloat.num 10) := by
  refine ⟨by decide, rfl, by decide, by decide, by decide, by decide⟩

/-- C10 (amended): `parse_amount` is total — it returns `none` exactly on
text `float()` cannot parse, and otherwise the parsed value rounded to two
decimals: a finite value fixed by two-decimal rounding, except that the
`nan` / `±inf` spellings accepted by `float()` come back as the
corresponding IEEE special; an absent, empty, or whitespace-only field
parses to `0.0` (so a blank debit or credit box is an explicit zero at
line entry), while a field `float()` cannot parse yields `none` and
`add_line` refuses the line. -/
theorem c10_parse_amount :
    (∀ (v : Option String) (r : PyFloat), parse_amount v = some r →
      (∃ q : ℚ, r = PyFloat.num q ∧ round2 q = q) ∨
        r = PyFloat.nan ∨ r = PyFloat.inf false ∨ r = PyFloat.inf true) ∧
    (parse_amount none = some (PyFloat.num 0) ∧
      parse_amount (some "") = some (PyFloat.num 0) ∧
      parse_amount (some "   ") = some (PyFloat.num 0)) ∧
    (∀ (s : DB) (entries : List Entry) (dateStr accName debitStr creditStr : String),
      (parse_amount (some debitStr) = none ∨ parse_amount (some creditStr) = none) →
      ∀ r, add_line s entries dateStr accName debitStr creditStr ≠ .ok r) ∧
    (∀ (s : DB) (entries : List Entry) (dateStr accName creditStr : String)
        (a : Account) (c : ℚ),
      is_valid_date (strip dateStr) = true →
      s.accounts.find? (fun x => x.name == accName) = some a →
      parse_amount (some creditStr) = some (PyFloat.num c) → 0 < c →
      add_line s entries dateStr accName "" creditStr
        = .ok (entries ++ [⟨a.id, accName, 0, c⟩])) := by
  refine ⟨?_, ⟨by decide, by decide, by decide⟩, ?_, ?_⟩
  · intro v r h
    unfold parse_amount at h
    by_cases h1 : strip (v.getD "") = ""
    · rw [if_pos h1] at h
      injection h with h2
      exact Or.inl ⟨round2 0, h2.symm, is2dp_round2 0⟩
    · rw [if_neg h1] at h
      cases hp : parseFloatLit (strip (v.getD "")) with
      | none => rw [hp] at h; cases h
      | some pf =>
          rw [hp] at h
          have h' : some (pyRound2 pf) = some r := h
          injection h' with h2
          cases pf with
          | num q => exact Or.inl ⟨round2 q, h2.symm, is2dp_round2 q⟩
          | inf b =>
              cases b with
              | false => exact Or.inr (Or.inr (Or.inl h2.symm))
              | true => exact Or.inr (Or.inr (Or.inr h2.symm))
          | nan => exact Or.inr (Or.inl h2.symm)
  · intro s entries dateStr accName debitStr creditStr hnone r heq
    unfold add_line at heq
    by_cases hdt : is_valid_date (strip dateStr) = false
    · rw [if_pos hdt] at heq; exact absurd heq (by simp)
    · rw [if_neg hdt] at heq
      rcases hnone with hn | hn
      · rw [hn] at heq
        cases hc : parse_amount (some creditStr) with
        | none => rw [hc] at heq; exact absurd heq (by simp)
        | some cq => rw [hc] at heq; exact absurd heq (by simp)
      · rw [hn] at heq
        cases hd : parse_amount (some debitStr) with
        | none => rw [hd] at heq; exact absurd heq (by simp)
        | some dq => rw [hd] at heq; exact absurd heq (by simp)
  · intro s entries dateStr accName creditStr a c hdt hacc hc hcpos
    have hlt0 : (PyFloat.num 0).ltZero = false := by decide
    have hltc : (PyFloat.num c).ltZero = false :=
      decide_eq_false (not_lt.mpr (le_of_lt hcpos))
    have hgt0 : (PyFloat.num 0).gtZero = false := by decide
    have heqc : (PyFloat.num c).eqZero = false :=
      decide_eq_false (ne_of_gt hcpos)
    have hneg : ((PyFloat.num 0).ltZero || (PyFloat.num c).ltZero) ≠ true := by
      rw [hlt0, hltc]
      simp
    have hxor : (((PyFloat.num 0).gtZero && (PyFloat.num c).gtZero) ||
        ((PyFloat.num 0).eqZero && (PyFloat.num c).eqZero)) ≠ true := by
      rw [hgt0, heqc]
      simp
    have hd0 : parse_amount (some "") = some (PyFloat.num 0) := by decide
    unfold add_line
    rw [if_neg (by rw [hdt]; simp), hd0, hc]
    show (if ((PyFloat.num 0).ltZero || (PyFloat.num c).ltZero) = true then
        (Except.error Err.NegativeAmount : Except Err (List Entry))
      else if (((PyFloat.num 0).gtZero && (PyFloat.num c).gtZero) ||
          ((PyFloat.num 0).eqZero && (PyFloat.num c).eqZero)) = true then
        Except.error Err.InvalidLine
      else match s.accounts.find? (fun x => x.name == accName) with
        | none => Except.error Err.NoAccount
        | some a => Except.ok (entries ++ [⟨a.id, accName, 0, c⟩])) = _
    rw [if_neg hneg, if_neg hxor, hacc]

/-- Witness for C10. -/
theorem c10_witness :
    ((∃ q : ℚ, PyFloat.num (47 / 20) = PyFloat.num q ∧ round2 q = q) ∨
      PyFloat.num (47 / 20) = PyFloat.nan ∨
      PyFloat.num (47 / 20) = PyFloat.inf false ∨
      PyFloat.num (47 / 20) = PyFloat.inf true) ∧
    (∀ r, add_line exAccounts [] "2024-01-01" "Cash" "abc" "5" ≠ .ok r) ∧
    add_line exAccounts [] "2024-01-01" "Cash" "" "12.5"
      = .ok ([] ++ [⟨1, "Cash", 0, 25 / 2⟩]) :=
  ⟨c10_parse_amount.1 (some "2.345") (PyFloat.num (47 / 20)) (by decide),
   fun r => c10_parse_amount.2.2.1 exAccounts [] "2024-01-01" "Cash" "abc" "5"
     (Or.inl (by decide)) r,
   c10_parse_amount.2.2.2 exAccounts [] "2024-01-01" "Cash" "12.5"
     ⟨1, "Cash", .Asset⟩ (25 / 2) (by decide) (by decide) (by decide) (by decide)⟩

/-! ### Claim C3 -/

theorem voucherPostedB_clear (s : DB) (vid : Nat) :
    voucherPostedB { s with vouchers := s.vouchers.map fun v =>
      if v.id == vid then { v with posted := false } else v } vid = false := by
  unfold voucherPostedB
  rw [List.any_map, List.any_eq_false]
  intro v hv
  by_cases hid : (v.id == vid) = true
  · simp [Function.comp, hid]
  · simp [Function.comp, hid]

/-- C3: while the owning voucher is posted, a direct insert, update, or
delete on its transaction lines aborts with `PostedVoucherLocked` (the
`.error` result means the row set is untouched); after clearing the posted
flag the delete of the same line succeeds and removes it. -/
theorem c3_posted_immutability (s : DB) (t : Txn) (ht : t ∈ s.transactions)
    (hp : voucherPostedB s t.voucher_id = true)
    (huniq : ∀ t' ∈ s.transactions, t'.id = t.id → t'.voucher_id = t.voucher_id) :
    (∀ (aid : Nat) (d c : ℚ),
      insertTxn s t.voucher_id aid d c = .error .PostedVoucherLocked) ∧
    (∀ (vid aid : Nat) (d c : ℚ),
      updateTxn s t.id vid aid d c = .error .PostedVoucherLocked) ∧
    deleteTxn s t.id = .error .PostedVoucherLocked ∧
    (∃ s1 s2 : DB, setPosted s t.voucher_id false = .ok s1 ∧
      deleteTxn s1 t.id = .ok s2 ∧ t ∉ s2.transactions) := by
  refine ⟨?_, ?_, ?_, ?_⟩
  · intro aid d c
    unfold insertTxn
    rw [if_pos hp]
  · intro vid aid d c
    unfold updateTxn
    rw [if_pos (List.any_eq_true.mpr ⟨t, ht, by simp [hp]⟩)]
  · unfold deleteTxn
    rw [if_pos (List.any_eq_true.mpr ⟨t, ht, by simp [hp]⟩)]
  · have hs1 : setPosted s t.voucher_id false
        = .ok { s with vouchers := s.vouchers.map fun v =>
            if v.id == t.voucher_id then { v with posted := false } else v } := by
      unfold setPosted
      rw [if_neg (by simp), if_neg (by simp)]
    have hguard : ({ s with vouchers := s.vouchers.map fun v =>
        if v.id == t.voucher_id then { v with posted := false } else v } : DB).transactions.any
          (fun t' => t'.id == t.id &&
            voucherPostedB { s with vouchers := s.vouchers.map fun v =>
              if v.id == t.voucher_id then { v with posted := false } else v } t'.voucher_id)
        = false := by
      rw [List.any_eq_false]
      intro t' ht' hcontra
      by_cases hid : (t'.id == t.id) = true
      · have hteq : t'.voucher_id = t.voucher_id := huniq t' ht' (by simpa using hid)
        rw [hid, Bool.true_and, hteq, voucherPostedB_clear] at hcontra
        cases hcontra
      · have hid' : (t'.id == t.id) = false := by simpa using hid
        rw [hid', Bool.false_and] at hcontra
        cases hcontra
    refine ⟨{ s with vouchers := s.vouchers.map fun v =>
        if v.id == t.voucher_id then { v with posted := false } else v },
      { s with
        vouchers := s.vouchers.map fun v =>
          if v.id == t.voucher_id then { v with posted := false } else v,
        transactions := s.transactions.filter fun x => !(x.id == t.id) },
      hs1, ?_, ?_⟩
    · unfold deleteTxn
      rw [if_neg (by rw [hguard]; simp)]
    · intro hmem
      have := (List.mem_filter.mp hmem).2
      simp at this

/-- Witness for C3. -/
theorem c3_witness :
    (insertTxn exPosted 1 1 (5 : ℚ) 0 = .error .PostedVoucherLocked) ∧
    (updateTxn exPosted 1 1 1 (5 : ℚ) 0 = .error .PostedVoucherLocked) ∧
    (deleteTxn exPosted 1 = .error .PostedVoucherLocked) ∧
    (∃ s1 s2 : DB, setPosted exPosted 1 false = .ok s1 ∧
      deleteTxn s1 1 = .ok s2 ∧ (⟨1, 1, 1, 100, 0⟩ : Txn) ∉ s2.transactions) := by
  obtain ⟨hA, hB, hC, hD⟩ := c3_posted_immutability exPosted ⟨1, 1, 1, 100, 0⟩
    (by decide) (by decide) (by decide)
  exact ⟨hA 1 5 0, hB 1 1 5 0, hC, hD⟩

/-! ### Claim C1 -/

/-- C1: in every reachable persisted state, a voucher whose `posted` flag is
set has at least two transaction lines and equal rounded debit/credit
totals; and any `UPDATE vouchers SET posted = 1` that succeeds on an
existing voucher has passed the `trg_voucher_post_balanced` re-validation of
exactly that condition (an invalid flip aborts with the trigger error
instead). -/
theorem c1_posted_balance_invariant :
    (∀ s : DB, Reachable s → ∀ v ∈ s.vouchers, v.posted = true →
      2 ≤ (voucherTxns s v.id).length ∧
      round2 (sumDebit (voucherTxns s v.id)) = round2 (sumCredit (voucherTxns s v.id))) ∧
    (∀ (s s' : DB) (vid : Nat), hasVoucherB s vid = true →
      setPosted s vid true = .ok s' →
      2 ≤ (voucherTxns s vid).length ∧
      round2 (sumDebit (voucherTxns s vid)) = round2 (sumCredit (voucherTxns s vid))) := by
  constructor
  · intro s hs v hv hp
    exact reachable_postedInv hs v hv hp
  · intro s s' vid hhas hset
    rcases setPosted_true_ok hset with ⟨-, hpc, -⟩ | ⟨hnone, -⟩
    · exact postCheck_ok hpc
    · rw [hhas] at hnone
      cases hnone

/-- Witness for C1: the posted Scenario-A voucher in a concretely reachable
state, and a concrete successful posted-flag flip. -/
theorem c1_witness :
    (2 ≤ (voucherTxns exPosted 1).length ∧
      round2 (sumDebit (voucherTxns exPosted 1)) = round2 (sumCredit (voucherTxns exPosted 1))) ∧
    (2 ≤ (voucherTxns exPosted 1).length ∧
      round2 (sumDebit (voucherTxns exPosted 1)) = round2 (sumCredit (voucherTxns exPosted 1))) :=
  ⟨c1_posted_balance_invariant.1 exPosted exPosted_reachable
      ⟨1, "2024-01-01", "Sale", true⟩ (by decide) rfl,
   c1_posted_balance_invariant.2 exPosted exPosted 1 (by decide)
      (show setPosted exPosted 1 true = .ok exPosted by decide)⟩

/-! ### Claim C4 -/

/-- C4: every transaction line that can be stored satisfies the CHECK
constraints — both amounts non-negative and exactly one side strictly
positive: every line of every reachable state satisfies it, a raw insert
only succeeds with such a line, and `add_line` refuses a parsed
debit/credit pair that violates it. -/
theorem c4_line_invariant :
    (∀ s : DB, Reachable s → ∀ t ∈ s.transactions,
      (0 ≤ t.debit ∧ 0 ≤ t.credit ∧
        ((0 < t.debit ∧ t.credit = 0) ∨ (0 < t.credit ∧ t.debit = 0)))) ∧
    (∀ (s s' : DB) (vid aid : Nat) (d c : ℚ), insertTxn s vid aid d c = .ok s' →
      (0 ≤ d ∧ 0 ≤ c ∧ ((0 < d ∧ c = 0) ∨ (0 < c ∧ d = 0)))) ∧
    (∀ (s : DB) (entries : List Entry) (dateStr accName debitStr creditStr : String)
        (d c : ℚ),
      parse_amount (some debitStr) = some (PyFloat.num d) →
      parse_amount (some creditStr) = some (PyFloat.num c) →
      ¬(0 ≤ d ∧ 0 ≤ c ∧ ((0 < d ∧ c = 0) ∨ (0 < c ∧ d = 0))) →
      ∀ r, add_line s entries dateStr accName debitStr creditStr ≠ .ok r) := by
  have hchk : ∀ d c : ℚ, lineChk d c = true ↔
      (0 ≤ d ∧ 0 ≤ c ∧ ((0 < d ∧ c = 0) ∨ (0 < c ∧ d = 0))) := by
    intro d c
    unfold lineChk
    constructor
    · intro h
      simp only [Bool.and_eq_true, Bool.or_eq_true, decide_eq_true_eq] at h
      tauto
    · intro h
      simp only [Bool.and_eq_true, Bool.or_eq_true, decide_eq_true_eq]
      tauto
  refine ⟨?_, ?_, ?_⟩
  · intro s hs t ht
    exact (hchk t.debit t.credit).mp (reachable_linesOk hs t ht)
  · intro s s' vid aid d c hins
    exact (hchk d c).mp (insertTxn_ok hins).2.1
  · intro s entries dateStr accName debitStr creditStr d c hd hc hviol r heq
    unfold add_line at heq
    by_cases hdt : is_valid_date (strip dateStr) = false
    · rw [if_pos hdt] at heq; exact absurd heq (by simp)
    · rw [if_neg hdt, hd, hc] at heq
      have heq' : (if ((PyFloat.num d).ltZero || (PyFloat.num c).ltZero) = true then
          (Except.error Err.NegativeAmount : Except Err (List Entry))
        else if (((PyFloat.num d).gtZero && (PyFloat.num c).gtZero) ||
            ((PyFloat.num d).eqZero && (PyFloat.num c).eqZero)) = true then
          Except.error Err.InvalidLine
        else match s.accounts.find? (fun a => a.name == accName) with
          | none => Except.error Err.NoAccount
          | some a => Except.ok (entries ++ [⟨a.id, accName, d, c⟩])) = Except.ok r := heq
      clear heq
      by_cases hng : ((PyFloat.num d).ltZero || (PyFloat.num c).ltZero) = true
      · rw [if_pos hng] at heq'; exact absurd heq' (by simp)
      · rw [if_neg hng] at heq'
        by_cases hbn : (((PyFloat.num d).gtZero && (PyFloat.num c).gtZero) ||
            ((PyFloat.num d).eqZero && (PyFloat.num c).eqZero)) = true
        · rw [if_pos hbn] at heq'; exact absurd heq' (by simp)
        · exfalso
          apply hviol
          simp only [PyFloat.ltZero, PyFloat.gtZero, PyFloat.eqZero, Bool.or_eq_true,
            Bool.and_eq_true, decide_eq_true_eq, not_or] at hng hbn
          have hd0 : 0 ≤ d := not_lt.mp hng.1
          have hc0 : 0 ≤ c := not_lt.mp hng.2
          refine ⟨hd0, hc0, ?_⟩
          rcases lt_or_eq_of_le hd0 with hdl | hdl
          · left
            refine ⟨hdl, ?_⟩
            rcases lt_or_eq_of_le hc0 with hcl | hcl
            · exact absurd ⟨hdl, hcl⟩ hbn.1
            · exact hcl.symm
          · rcases lt_or_eq_of_le hc0 with hcl | hcl
            · exact Or.inr ⟨hcl, hdl.symm⟩
            · exact absurd ⟨hdl.symm, hcl.symm⟩ hbn.2

/-- Witness for C4: the stored Scenario-A lines, a concrete successful
insert, and a rejected both-sides-zero line. -/
theorem c4_witness :
    (0 ≤ (100 : ℚ) ∧ 0 ≤ (0 : ℚ) ∧
      ((0 < (100 : ℚ) ∧ (0 : ℚ) = 0) ∨ (0 < (0 : ℚ) ∧ (100 : ℚ) = 0))) ∧
    (∀ r, add_line exAccounts [] "2024-01-01" "Cash" "0" "0" ≠ .ok r) := by
  constructor
  · exact c4_line_invariant.1 exPosted exPosted_reachable ⟨1, 1, 1, 100, 0⟩ (by decide)
  · exact fun r => c4_line_invariant.2.2 exAccounts [] "2024-01-01" "Cash" "0" "0" 0 0
      (by decide) (by decide) (by decide) r

/-! ### Claim C7 -/

/-- C7: the Balance Sheet is cumulative from inception — its queries filter
only on `v.date <= endDate`, so the report does not depend on the range
start, every emitted row carries the account's full cumulative sum
(`debit - credit` for Asset rows, `credit - debit` for Liability rows), and
every Asset/Liability account with any line dated up to `endDate` gets its
row. -/
theorem c7_balance_sheet (s : DB) (startD startD' endD : String)
    (h1 : is_valid_date startD = true) (h1' : is_valid_date startD' = true)
    (hend : is_valid_date endD = true)
    (h2 : sLt endD startD = false) (h2' : sLt endD startD' = false) :
    generate_bs s startD endD = generate_bs s startD' endD ∧
    ∀ rows, generate_bs s startD endD = .ok rows →
      (∀ r ∈ rows, ∃ a ∈ s.accounts, r.1 = a.name ∧
        ((a.type = .Asset ∧
            r.2.1 = ((cumTxns s a.id endD).map fun t => t.debit - t.credit).sum ∧
            r.2.2 = 0) ∨
         (a.type = .Liability ∧ r.2.1 = 0 ∧
            r.2.2 = ((cumTxns s a.id endD).map fun t => t.credit - t.debit).sum))) ∧
      (∀ a ∈ s.accounts, cumTxns s a.id endD ≠ [] →
        (a.type = .Asset →
          (a.name, ((cumTxns s a.id endD).map fun t => t.debit - t.credit).sum, (0 : ℚ))
            ∈ rows) ∧
        (a.type = .Liability →
          (a.name, (0 : ℚ), ((cumTxns s a.id endD).map fun t => t.credit - t.debit).sum)
            ∈ rows)) := by
  have hbs : ∀ st : String, is_valid_date st = true → sLt endD st = false →
      generate_bs s st endD =
        .ok (((s.accounts.filter fun a =>
              a.type == AccountType.Asset && !(cumTxns s a.id endD).isEmpty).map fun a =>
                (a.name, ((cumTxns s a.id endD).map fun t => t.debit - t.credit).sum, (0 : ℚ))) ++
             ((s.accounts.filter fun a =>
              a.type == AccountType.Liability && !(cumTxns s a.id endD).isEmpty).map fun a =>
                (a.name, (0 : ℚ), ((cumTxns s a.id endD).map fun t => t.credit - t.debit).sum))) := by
    intro st hv hlt
    unfold generate_bs
    rw [if_neg (by rw [hv, hend]; simp), if_neg (by rw [hlt]; simp)]
  constructor
  · rw [hbs startD h1 h2, hbs startD' h1' h2']
  · intro rows hrows
    rw [hbs startD h1 h2] at hrows
    injection hrows with hrows
    constructor
    · intro r hr
      rw [← hrows] at hr
      rcases List.mem_append.mp hr with hr' | hr'
      · obtain ⟨a, ha, rfl⟩ := List.mem_map.mp hr'
        have ha' := List.mem_filter.mp ha
        have hty : a.type = .Asset := by
          have := ha'.2
          simp only [Bool.and_eq_true, beq_iff_eq] at this
          exact this.1
        exact ⟨a, ha'.1, rfl, Or.inl ⟨hty, rfl, rfl⟩⟩
      · obtain ⟨a, ha, rfl⟩ := List.mem_map.mp hr'
        have ha' := List.mem_filter.mp ha
        have hty : a.type = .Liability := by
          have := ha'.2
          simp only [Bool.and_eq_true, beq_iff_eq] at this
          exact this.1
        exact ⟨a, ha'.1, rfl, Or.inr ⟨hty, rfl, rfl⟩⟩
    · intro a ha hane
      have hemp : (cumTxns s a.id endD).isEmpty = false := by
        cases hc : cumTxns s a.id endD with
        | nil => exact absurd hc hane
        | cons x xs => rfl
      constructor
      · intro hty
        rw [← hrows]
        refine List.mem_append.mpr (Or.inl ?_)
        exact List.mem_map.mpr ⟨a, List.mem_filter.mpr ⟨ha, by rw [hty, hemp]; rfl⟩, rfl⟩
      · intro hty
        rw [← hrows]
        refine List.mem_append.mpr (Or.inr ?_)
        exact List.mem_map.mpr ⟨a, List.mem_filter.mpr ⟨ha, by rw [hty, hemp]; rfl⟩, rfl⟩

/-- Witness for C7: the voucher dated 2024-01-01 lies before the range start
2024-06-01, yet the Cash row still carries its amount. -/
theorem c7_witness :
    generate_bs exPosted "2024-06-01" "2024-12-31"
      = generate_bs exPosted "2024-02-01" "2024-12-31" ∧
    ("Cash", ((cumTxns exPosted 1 "2024-12-31").map fun t => t.debit - t.credit).sum, (0 : ℚ))
      ∈ [(("Cash" : String), (100 : ℚ), (0 : ℚ))] := by
  have h := c7_balance_sheet exPosted "2024-06-01" "2024-02-01" "2024-12-31"
    (by decide) (by decide) (by decide) (by decide) (by decide)
  refine ⟨h.1, ?_⟩
  exact ((h.2 [(("Cash" : String), (100 : ℚ), (0 : ℚ))] (by decide)).2
    ⟨1, "Cash", .Asset⟩ (by decide) (by decide)).1 rfl

/-! ### Claim C8 -/

/-- C8 counterexample: the account "Cash" is auto-resolved, so the report
does not fail, yet — having no transaction in range — it gets no
per-account row: the output is only the trailing Net Cash row, refuting
"emits per resolved account a row". -/
theorem c8_counterexample :
    resolveCashNames exCashOnly "" = ["Cash"] ∧
    generate_cash_flow exCashOnly "" "2024-01-01" "2024-12-31"
      = .ok [("Net Cash", 0, 0)] := by
  constructor
  · decide
  · decide

/-- C8 (amended): with no explicit names supplied, the resolved set is
exactly the accounts whose lowercased name contains "cash" or "bank"; an
empty resolved set fails with `NoCashAccounts` before any query; otherwise
the output is the per-account rows — one for each resolved account having
at least one transaction in the date range, carrying that account's in-range
debit sum as inflow and credit sum as outflow — followed by the trailing
`("Net Cash", total inflow, total outflow)` row.  A resolved account with no
in-range line yields no row. -/
theorem c8_cash_flow (s : DB) (startD endD : String)
    (hv1 : is_valid_date startD = true) (hv2 : is_valid_date endD = true)
    (hr : sLt endD startD = false) :
    (resolveCashNames s "" =
      (s.accounts.filter fun a =>
        containsSub (lowerStr a.name) "cash" || containsSub (lowerStr a.name) "bank").map
        Account.name) ∧
    (resolveCashNames s "" = [] →
      generate_cash_flow s "" startD endD = .error .NoCashAccounts) ∧
    (resolveCashNames s "" ≠ [] →
      ∃ body, generate_cash_flow s "" startD endD =
          .ok (body ++
            [("Net Cash", (body.map fun r => r.2.1).sum, (body.map fun r => r.2.2).sum)]) ∧
        (∀ r ∈ body, ∃ a ∈ s.accounts, r.1 = a.name ∧
          (resolveCashNames s "").contains a.name = true ∧
          rangeTxns s a.id startD endD ≠ [] ∧
          r.2.1 = sumDebit (rangeTxns s a.id startD endD) ∧
          r.2.2 = sumCredit (rangeTxns s a.id startD endD)) ∧
        (∀ a ∈ s.accounts, (resolveCashNames s "").contains a.name = true →
          rangeTxns s a.id startD endD ≠ [] →
          ∃ r ∈ body, r.1 = a.name)) := by
  refine ⟨by unfold resolveCashNames; rw [if_pos (by decide)], ?_, ?_⟩
  · intro hempty
    unfold generate_cash_flow
    rw [if_neg (by rw [hv1, hv2]; simp), if_neg (by rw [hr]; simp), if_pos hempty]
  · intro hne
    refine ⟨cfGroup s (resolveCashNames s "") startD endD, ?_, ?_, ?_⟩
    · unfold generate_cash_flow
      rw [if_neg (by rw [hv1, hv2]; simp), if_neg (by rw [hr]; simp), if_neg hne]
    · intro r hr'
      have hr2 : r ∈ (s.accounts.filter fun a =>
          (resolveCashNames s "").contains a.name &&
            !(rangeTxns s a.id startD endD).isEmpty).map fun a =>
          (a.name, sumDebit (rangeTxns s a.id startD endD),
            sumCredit (rangeTxns s a.id startD endD)) :=
        ((List.perm_insertionSort cfLe _).mem_iff).mp hr'
      obtain ⟨a, ha, rfl⟩ := List.mem_map.mp hr2
      have ha' := List.mem_filter.mp ha
      have hflt := ha'.2
      rw [Bool.and_eq_true] at hflt
      refine ⟨a, ha'.1, rfl, hflt.1, ?_, rfl, rfl⟩
      intro hnil
      rw [hnil] at hflt
      exact absurd hflt.2 (by decide)
    · intro a ha hcont hnil
      have hemp : (rangeTxns s a.id startD endD).isEmpty = false := by
        cases hc : rangeTxns s a.id startD endD with
        | nil => exact absurd hc hnil
        | cons x xs => rfl
      refine ⟨(a.name, sumDebit (rangeTxns s a.id startD endD),
        sumCredit (rangeTxns s a.id startD endD)), ?_, rfl⟩
      refine ((List.perm_insertionSort cfLe _).mem_iff).mpr ?_
      exact List.mem_map.mpr ⟨a, List.mem_filter.mpr ⟨ha, by rw [hcont, hemp]; rfl⟩, rfl⟩

/-- A cash account with in-range activity. -/
def exCashFlow : DB := ⟨[⟨1, "Cash Box", .Asset⟩, ⟨2, "Revenue", .Income⟩],
  [⟨1, "2024-03-01", "Sale", true⟩],
  [⟨1, 1, 1, 100, 0⟩, ⟨2, 1, 2, 0, 100⟩], 3, 2, 3⟩

/-- A state with no account name containing cash or bank (Scenario E). -/
def exNoCash : DB := ⟨[⟨1, "Revenue", .Income⟩], [], [], 2, 1, 1⟩

/-- Witness for C8: the Scenario-E failure and a populated report. -/
theorem c8_witness :
    (generate_cash_flow exNoCash "" "2024-01-01" "2024-12-31" = .error .NoCashAccounts) ∧
    (∃ body, generate_cash_flow exCashFlow "" "2024-01-01" "2024-12-31" =
        .ok (body ++
          [("Net Cash", (body.map fun r => r.2.1).sum, (body.map fun r => r.2.2).sum)]) ∧
      (∀ r ∈ body, ∃ a ∈ exCashFlow.accounts, r.1 = a.name ∧
        (resolveCashNames exCashFlow "").contains a.name = true ∧
        rangeTxns exCashFlow a.id "2024-01-01" "2024-12-31" ≠ [] ∧
        r.2.1 = sumDebit (rangeTxns exCashFlow a.id "2024-01-01" "2024-12-31") ∧
        r.2.2 = sumCredit (rangeTxns exCashFlow a.id "2024-01-01" "2024-12-31")) ∧
      (∀ a ∈ exCashFlow.accounts,
        (resolveCashNames exCashFlow "").contains a.name = true →
        rangeTxns exCashFlow a.id "2024-01-01" "2024-12-31" ≠ [] →
        ∃ r ∈ body, r.1 = a.name)) :=
  ⟨(c8_cash_flow exNoCash "2024-01-01" "2024-12-31"
      (by decide) (by decide) (by decide)).2.1 (by decide),
   (c8_cash_flow exCashFlow "2024-01-01" "2024-12-31"
      (by decide) (by decide) (by decide)).2.2 (by decide)⟩

/-! ### Claim C5 -/

theorem glScan_length (ty : AccountType) (bal : ℚ) (l : List GLJoin) :
    (glScan ty bal l).length = l.length := by
  induction l generalizing bal with
  | nil => rfl
  | cons r rest ih => simp [glScan, ih]

theorem glScan_balance_getElem? (ty : AccountType) (bal : ℚ) (l : List GLJoin) (i : Nat) :
    ((glScan ty bal l)[i]?).map GLRow.balance =
      if i < l.length then some (bal + ((l.take (i + 1)).map (deltaJ ty)).sum) else none := by
  induction l generalizing bal i with
  | nil => simp [glScan]
  | cons r rest ih =>
      cases i with
      | zero => simp [glScan, List.take_succ_cons]
      | succ i =>
          simp only [glScan, List.getElem?_cons_succ, List.length_cons, List.take_succ_cons,
            List.map_cons, List.sum_cons]
          rw [ih]
          by_cases hi : i < rest.length
          · rw [if_pos hi, if_pos (by omega)]
            rw [add_assoc]
          · rw [if_neg hi, if_neg (by omega)]

theorem take_map_sum_succ {α : Type} (f : α → ℚ) (l : List α) (k : Nat) (j : α)
    (h : l[k]? = some j) :
    ((l.take (k + 1)).map f).sum = ((l.take k).map f).sum + f j := by
  induction l generalizing k with
  | nil => simp at h
  | cons x xs ih =>
      cases k with
      | zero =>
          simp only [List.getElem?_cons_zero, Option.some.injEq] at h
          subst h
          simp [List.take_succ_cons]
      | succ k =>
          rw [List.getElem?_cons_succ] at h
          rw [List.take_succ_cons, List.take_succ_cons, List.map_cons, List.map_cons,
            List.sum_cons, List.sum_cons, ih k h]
          ring

theorem glOpeningSum_is2dp (s : DB) (aid : Nat) (ty : AccountType) (startD : String)
    (h2dp : ∀ t ∈ s.transactions, Is2dp t.debit ∧ Is2dp t.credit) :
    Is2dp (glOpeningSum s aid ty startD) := by
  unfold glOpeningSum
  refine is2dp_sum ?_
  intro x hx
  obtain ⟨t, ht, hmk⟩ := List.mem_filterMap.mp hx
  by_cases h1 : (t.account_id == aid) = true
  · rw [if_pos h1] at hmk
    cases hf : s.vouchers.find? (fun v => v.id == t.voucher_id) with
    | none => rw [hf] at hmk; cases hmk
    | some v =>
        rw [hf] at hmk
        have hmk' : (if sLt v.date startD = true then some (deltaOf ty t.debit t.credit)
            else none) = some x := hmk
        by_cases h2 : sLt v.date startD = true
        · rw [if_pos h2] at hmk'
          injection hmk' with hmk'
          rw [← hmk']
          have h3 := h2dp t ht
          cases ty with
          | Asset => exact is2dp_sub h3.1 h3.2
          | Expense => exact is2dp_sub h3.1 h3.2
          | Liability => exact is2dp_sub h3.2 h3.1
          | Income => exact is2dp_sub h3.2 h3.1
        · rw [if_neg h2] at hmk'; cases hmk'
  · rw [if_neg h1] at hmk; cases hmk

theorem generate_gl_ok {s : DB} {accName startD endD : String} {rows : List GLRow}
    {a : Account} (hacc : s.accounts.find? (fun x => x.name == accName) = some a)
    (hok : generate_general_ledger s accName startD endD = .ok rows) :
    rows = glScan a.type (round2 (glOpeningSum s a.id a.type startD))
      (List.insertionSort glLe (glRowsUnsorted s a.id startD endD)) := by
  unfold generate_general_ledger at hok
  by_cases h1 : is_valid_date startD = false ∨ is_valid_date endD = false
  · rw [if_pos h1] at hok; cases hok
  · rw [if_neg h1] at hok
    by_cases h2 : sLt endD startD = true
    · rw [if_pos h2] at hok; cases hok
    · rw [if_neg h2] at hok
      by_cases h3 : accName = ""
      · rw [if_pos h3] at hok; cases hok
      · rw [if_neg h3, hacc] at hok
        have hok' : Except.ok (ε := Err)
            (glScan a.type (round2 (glOpeningSum s a.id a.type startD))
              (List.insertionSort glLe (glRowsUnsorted s a.id startD endD))) = .ok rows := hok
        injection hok' with h4
        exact h4.symm

/-- C5: for a resolved account and two-decimal stored amounts, the General
Ledger's seeded opening balance `round(opening, 2)` equals the unrounded
natural-balance sum of the account's lines dated strictly before the range
start; the emitted rows are the running-balance scan of the in-range join
sorted by `(date, voucher id, line id)`; each balance satisfies
`balance[i] = balance[i-1] + delta(line[i])` with `balance[-1]` the opening;
and the last balance minus the opening equals the sum of the in-range
deltas. -/
theorem c5_general_ledger (s : DB) (accName startD endD : String) (a : Account)
    (rows : List GLRow)
    (h2dp : ∀ t ∈ s.transactions, Is2dp t.debit ∧ Is2dp t.credit)
    (hacc : s.accounts.find? (fun x => x.name == accName) = some a)
    (hok : generate_general_ledger s accName startD endD = .ok rows) :
    round2 (glOpeningSum s a.id a.type startD) = glOpeningSum s a.id a.type startD ∧
    rows = glScan a.type (round2 (glOpeningSum s a.id a.type startD))
      (List.insertionSort glLe (glRowsUnsorted s a.id startD endD)) ∧
    List.Sorted glLe (List.insertionSort glLe (glRowsUnsorted s a.id startD endD)) ∧
    (List.insertionSort glLe (glRowsUnsorted s a.id startD endD)).Perm
      (glRowsUnsorted s a.id startD endD) ∧
    (∀ (x : GLRow) (j : GLJoin), rows[0]? = some x →
      (List.insertionSort glLe (glRowsUnsorted s a.id startD endD))[0]? = some j →
      x.balance = round2 (glOpeningSum s a.id a.type startD) + deltaJ a.type j) ∧
    (∀ (i : Nat) (x y : GLRow) (j : GLJoin), rows[i]? = some x → rows[i + 1]? = some y →
      (List.insertionSort glLe (glRowsUnsorted s a.id startD endD))[i + 1]? = some j →
      y.balance = x.balance + deltaJ a.type j) ∧
    (∀ x : GLRow, rows.getLast? = some x →
      x.balance - round2 (glOpeningSum s a.id a.type startD) =
        ((List.insertionSort glLe (glRowsUnsorted s a.id startD endD)).map
          (deltaJ a.type)).sum) := by
  have hrows := generate_gl_ok hacc hok
  refine ⟨glOpeningSum_is2dp s a.id a.type startD h2dp, hrows,
    List.sorted_insertionSort glLe _, List.perm_insertionSort glLe _, ?_, ?_, ?_⟩
  · intro x j hx hj
    subst hrows
    have hb := glScan_balance_getElem? a.type (round2 (glOpeningSum s a.id a.type startD))
      (List.insertionSort glLe (glRowsUnsorted s a.id startD endD)) 0
    rw [hx] at hb
    cases hsort : List.insertionSort glLe (glRowsUnsorted s a.id startD endD) with
    | nil => rw [hsort] at hj; cases hj
    | cons j0 rest =>
        rw [hsort] at hj hb
        simp only [List.getElem?_cons_zero, Option.some.injEq] at hj
        subst hj
        rw [if_pos (by simp)] at hb
        simp only [Option.map_some', Option.some.injEq] at hb
        rw [hb]
        simp [List.take_succ_cons]
  · intro i x y j hx hy hj
    subst hrows
    have hbx := glScan_balance_getElem? a.type (round2 (glOpeningSum s a.id a.type startD))
      (List.insertionSort glLe (glRowsUnsorted s a.id startD endD)) i
    have hby := glScan_balance_getElem? a.type (round2 (glOpeningSum s a.id a.type startD))
      (List.insertionSort glLe (glRowsUnsorted s a.id startD endD)) (i + 1)
    rw [hx] at hbx
    rw [hy] at hby
    have hjlt : i + 1 < (List.insertionSort glLe (glRowsUnsorted s a.id startD endD)).length := by
      by_contra hcon
      rw [List.getElem?_eq_none (by omega)] at hj
      cases hj
    rw [if_pos (by omega)] at hbx
    rw [if_pos hjlt] at hby
    simp only [Option.map_some', Option.some.injEq] at hbx hby
    rw [hbx, hby, take_map_sum_succ (deltaJ a.type) _ (i + 1) j hj]
    ring
  · intro x hlast
    subst hrows
    set sorted := List.insertionSort glLe (glRowsUnsorted s a.id startD endD) with hsorted
    have hnil : glScan a.type (round2 (glOpeningSum s a.id a.type startD)) sorted ≠ [] := by
      intro hc
      rw [hc] at hlast
      cases hlast
    have hlen : 0 < sorted.length := by
      by_contra hcon
      have : sorted = [] := List.length_eq_zero.mp (by omega)
      apply hnil
      rw [this]
      rfl
    have hlast' := hlast
    rw [List.getLast?_eq_getElem?] at hlast'
    have hb := glScan_balance_getElem? a.type (round2 (glOpeningSum s a.id a.type startD))
      sorted ((glScan a.type (round2 (glOpeningSum s a.id a.type startD)) sorted).length - 1)
    rw [hlast'] at hb
    rw [glScan_length] at hb
    rw [if_pos (by omega)] at hb
    simp only [Option.map_some', Option.some.injEq] at hb
    rw [hb]
    rw [show sorted.length - 1 + 1 = sorted.length from by omega]
    rw [List.take_length]
    ring

/-- The Scenario-D data: two balanced vouchers, Cash debit 50 on 2024-01-01
and Cash credit 20 on 2024-02-01. -/
def exGL : DB := ⟨[⟨1, "Cash", .Asset⟩, ⟨2, "Sales", .Income⟩],
  [⟨1, "2024-01-01", "Seed", true⟩, ⟨2, "2024-02-01", "Move", true⟩],
  [⟨1, 1, 1, 50, 0⟩, ⟨2, 1, 2, 0, 50⟩, ⟨3, 2, 1, 0, 20⟩, ⟨4, 2, 2, 20, 0⟩], 3, 3, 5⟩

/-- Witness for C5 (Scenario D): opening balance 50 from before the range,
one row with running balance 30, telescoping to the delta sum. -/
theorem c5_witness :
    round2 (glOpeningSum exGL 1 .Asset "2024-01-15") = glOpeningSum exGL 1 .Asset "2024-01-15" ∧
    [(⟨"2024-02-01", "Move", 0, 20, 30⟩ : GLRow)] =
      glScan .Asset (round2 (glOpeningSum exGL 1 .Asset "2024-01-15"))
        (List.insertionSort glLe (glRowsUnsorted exGL 1 "2024-01-15" "2024-02-28")) ∧
    ((⟨"2024-02-01", "Move", 0, 20, 30⟩ : GLRow).balance -
        round2 (glOpeningSum exGL 1 .Asset "2024-01-15") =
      ((List.insertionSort glLe (glRowsUnsorted exGL 1 "2024-01-15" "2024-02-28")).map
        (deltaJ .Asset)).sum) :=
  have h := c5_general_ledger exGL "Cash" "2024-01-15" "2024-02-28" ⟨1, "Cash", .Asset⟩
    [⟨"2024-02-01", "Move", 0, 20, 30⟩] (by decide) (by decide) (by decide)
  ⟨h.1, h.2.1, h.2.2.2.2.2.2 ⟨"2024-02-01", "Move", 0, 20, 30⟩ (by decide)⟩
